import Mathlib

/-!
Shallow embedding of the ODP-EL toolchain's runtime semantics engine and the
static normative model it consumes (src/ODP/*.py, src/runtime/engine.py,
src/runtime/instances.py, src/runtime/tracer.py, src/ODP/community.py).

Modelling conventions:
* Python dataclasses become Lean structures; structural dataclass equality
  becomes Lean equality (all compared classes are plain-data dataclasses).
* Python dicts become association lists with unique keys; the engine checks
  membership before inserting, so no overwriting occurs except on kwargs,
  which uses a replace-or-append update.
* A raised Python exception becomes an error value of type PyError carried
  in Except; operations that cannot raise stay pure.
* The two ambient effects, uuid.uuid4 draws and the opaque eval of guard
  strings, are supplied by an Oracle record: genId gives the n-th uuid draw
  of a run, evalGuard gives the value of Python eval on a guard's raw text
  over the information the real context closure can observe (eval raising
  an exception is Option.none, which Guard evaluation turns into false).
  Trace timestamps (datetime.now) are not modelled; every claim about traces
  is stated up to timestamps.
-/

namespace ODPEL

/-- ODP.parameter.Parameter: a named parameter with a type tag. -/
structure Parameter where
  name : String
  type_hint : String
deriving DecidableEq

/-- ODP.artifact.Property: a named property of an artifact template. -/
structure Property where
  name : String
  type_hint : String
deriving DecidableEq

/-- ODP.type.SimpleType: a named scalar type tag. -/
structure SimpleType where
  name : String
deriving DecidableEq

/-- ODP.event.Event: a frozen dataclass (name, artifacts). -/
structure Event where
  name : String
  artifacts : List Parameter
deriving DecidableEq

/-- ODP.event.EventExpression: op is None (leaf) or a string tag, operands are
sub-expressions or plain events. -/
inductive EventExpression where
  | node (op : Option String) (operands : List (EventExpression ⊕ Event))

mutual

/-- Decidable equality for the nested EventExpression inductive. -/
def EventExpression.decEq : (a b : EventExpression) → Decidable (a = b)
  | .node o1 l1, .node o2 l2 =>
    match inferInstanceAs (Decidable (o1 = o2)) with
    | isFalse h => isFalse (fun heq => by cases heq; exact h rfl)
    | isTrue h =>
      match EventExpression.decEqList l1 l2 with
      | isFalse h2 => isFalse (fun heq => by cases heq; exact h2 rfl)
      | isTrue h2 => isTrue (by rw [h, h2])

/-- Decidable equality for operand lists. -/
def EventExpression.decEqList :
    (a b : List (EventExpression ⊕ Event)) → Decidable (a = b)
  | [], [] => isTrue rfl
  | [], _ :: _ => isFalse (by simp)
  | _ :: _, [] => isFalse (by simp)
  | x :: xs, y :: ys =>
    match EventExpression.decEqOperand x y with
    | isFalse h => isFalse (fun heq => by cases heq; exact h rfl)
    | isTrue h =>
      match EventExpression.decEqList xs ys with
      | isFalse h2 => isFalse (fun heq => by cases heq; exact h2 rfl)
      | isTrue h2 => isTrue (by rw [h, h2])

/-- Decidable equality for a single operand. -/
def EventExpression.decEqOperand :
    (a b : EventExpression ⊕ Event) → Decidable (a = b)
  | .inl a, .inl b =>
    match EventExpression.decEq a b with
    | isFalse h => isFalse (fun heq => by cases heq; exact h rfl)
    | isTrue h => isTrue (by rw [h])
  | .inl _, .inr _ => isFalse (by simp)
  | .inr _, .inl _ => isFalse (by simp)
  | .inr a, .inr b =>
    match inferInstanceAs (Decidable (a = b)) with
    | isFalse h => isFalse (fun heq => by cases heq; exact h rfl)
    | isTrue h => isTrue (by rw [h])

end

instance : DecidableEq EventExpression := EventExpression.decEq

/-- EventExpression.is_leaf from the source: no operator and a single Event operand. -/
def EventExpression.is_leaf : EventExpression → Bool
  | .node op operands =>
    match op, operands with
    | none, [Sum.inr _] => true
    | _, _ => false

mutual

/-- EventExpression.evaluate over a set of occurred events (modelled as a list,
membership by structural equality, as for the frozen Event dataclass). -/
def EventExpression.evaluate (occurred : List Event) : EventExpression → Bool
  | .node op operands =>
    match op, operands with
    | none, [Sum.inr e] => occurred.contains e
    | some "AND", ops => EventExpression.evalAllOperands occurred ops
    | some "OR", ops => EventExpression.evalAnyOperands occurred ops
    | _, _ => false

/-- The all(...) generator in EventExpression.evaluate for the AND branch. -/
def EventExpression.evalAllOperands
    (occurred : List Event) : List (EventExpression ⊕ Event) → Bool
  | [] => true
  | Sum.inl e :: rest =>
    e.evaluate occurred && EventExpression.evalAllOperands occurred rest
  | Sum.inr ev :: rest =>
    occurred.contains ev && EventExpression.evalAllOperands occurred rest

/-- The any(...) generator in EventExpression.evaluate for the OR branch. -/
def EventExpression.evalAnyOperands
    (occurred : List Event) : List (EventExpression ⊕ Event) → Bool
  | [] => false
  | Sum.inl e :: rest =>
    e.evaluate occurred || EventExpression.evalAnyOperands occurred rest
  | Sum.inr ev :: rest =>
    occurred.contains ev || EventExpression.evalAnyOperands occurred rest

end

/-- ODP.guard.Guard: an opaque raw expression string. Its evaluation semantics
live in the Oracle (Python eval); evaluation is defined on the engine side. -/
structure Guard where
  raw : String
deriving DecidableEq

/-- ODP.behavior.DeonticType. -/
inductive DeonticType where
  | BURDEN
  | PERMIT
  | EMBARGO
deriving DecidableEq

/-- ODP.behavior.DeonticToken template. affected_role stores the name of the
referenced CommunityRole: the engine reads only affected_role.name (and its
truthiness), so the role's name determines every observable use. -/
structure DeonticToken where
  token_type : DeonticType
  name : String
  parameters : List String := []
  affected_role : Option String := none
  pre_activation_guard : Option Guard := none
  activation_trigger : Option Event := none
  finish_expression : Option EventExpression := none
  post_event_guard : Option Guard := none
deriving DecidableEq

/-- ODP.behavior.DelegatedToken. -/
inductive DelegatedToken where
  | PERMIT
  | BURDEN
deriving DecidableEq

/-- The concrete Python class of an action, with the variant-specific fields.
SpeechAct, Authorization, Declaration and Delegation all carry a tokens list
(Delegation inherits it from SpeechAct; the hydrator always passes tokens=[]
for a Delegation and _link_deontic_tokens skips Delegations). The delegation
agent is the object the hydrator stored from the AST; the engine reads only
agent.name, so it is modelled by that name (none models a null agent). -/
inductive ActionKind where
  | basic (return_type : Option String)
  | speechAct (tokens : List DeonticToken)
  | authorization (tokens : List DeonticToken)
  | declaration (tokens : List DeonticToken)
  | delegation (tokens : List DeonticToken) (token_type : DelegatedToken)
      (token_name : String) (agent : Option String)
deriving DecidableEq

/-- ODP.behavior.Action: the shared header plus the concrete-class payload. -/
structure Action where
  name : String
  parameters : List Parameter := []
  guard : Option Guard := none
  trigger_event : Option Event := none
  kind : ActionKind
deriving DecidableEq

/-- isinstance(action, behavior.SpeechAct): true for SpeechAct, Authorization,
Declaration and Delegation; yields the tokens list the SpeechAct branch iterates. -/
def Action.speechActTokens : Action → Option (List DeonticToken)
  | { kind := .speechAct ts, .. } => some ts
  | { kind := .authorization ts, .. } => some ts
  | { kind := .declaration ts, .. } => some ts
  | { kind := .delegation ts _ _ _, .. } => some ts
  | { kind := .basic _, .. } => none

/-- ODP.behavior.CommunityRole. -/
structure CommunityRole where
  name : String
  description : Option String := none
  actions : List Action := []
  tokens : List DeonticToken := []
deriving DecidableEq

/-- CommunityRole.get_action: first action with the given name. -/
def CommunityRole.get_action (r : CommunityRole) (action_name : String) : Option Action :=
  r.actions.find? (fun a => a.name == action_name)

/-- ODP.enterprise_object.Party. -/
structure Party where
  name : String
  fulfills_roles : List CommunityRole := []
  active_tokens : List DeonticToken := []
deriving DecidableEq

/-- Party.get_action: scan fulfilled roles in order, first hit wins. -/
def Party.get_action (p : Party) (action_name : String) : Option Action :=
  p.fulfills_roles.findSome? (fun r => r.get_action action_name)

/-- Party.has_role: any fulfilled role with the given name. -/
def Party.has_role (p : Party) (role_name : String) : Bool :=
  p.fulfills_roles.any (fun r => r.name == role_name)

/-- ODP.artifact.Artifact template. parties holds CommunityRole references;
the engine never reads them, they are carried for structural equality. -/
structure Artifact where
  name : String
  parties : List CommunityRole := []
  properties : List Property := []
deriving DecidableEq

/-- ODP.policy.DurationUnit. -/
inductive DurationUnit where
  | MINUTE | MINUTES | HOUR | HOURS | DAY | DAYS
  | WEEK | WEEKS | MONTH | MONTHS | YEAR | YEARS
deriving DecidableEq

/-- ODP.policy.Duration. Python float values are modelled as rationals; no
engine code performs arithmetic on them, they are only stored and compared. -/
structure Duration where
  value : Rat
  unit : DurationUnit
deriving DecidableEq

/-- ODP.policy.NumberInterval. -/
structure NumberInterval where
  from_ : Rat
  to_ : Rat
deriving DecidableEq

/-- ODP.policy.PolicyValue: Duration | NumberInterval | float | str | bool. -/
inductive PolicyValue where
  | duration (d : Duration)
  | interval (i : NumberInterval)
  | num (x : Rat)
  | str (s : String)
  | bool (b : Bool)
deriving DecidableEq

/-- ODP.policy.EnvelopeRuleType. -/
inductive EnvelopeRuleType where
  | ONE | SET | LIST
deriving DecidableEq

/-- ODP.policy.EnvelopeRule. -/
structure EnvelopeRule where
  type : EnvelopeRuleType
  values : List PolicyValue := []
deriving DecidableEq

/-- ODP.policy.PolicyEnvelope. -/
structure PolicyEnvelope where
  envelope_rules : List EnvelopeRule := []
deriving DecidableEq

/-- ODP.policy.PolicySettingBehaviour. -/
structure PolicySettingBehaviour where
  policy_setting_role : String
deriving DecidableEq

/-- ODP.policy.Policy. -/
structure Policy where
  name : String
  type : String
  setting_behaviour : PolicySettingBehaviour
  initial_value : PolicyValue
  envelope : PolicyEnvelope
deriving DecidableEq

/-- ODP.policy.Rule = Union[Policy, PolicyEnvelope, PolicyValue]. -/
inductive Rule where
  | policy (p : Policy)
  | policyEnvelope (e : PolicyEnvelope)
  | policyValue (v : PolicyValue)
deriving DecidableEq

/-- isinstance(rule, policy.Policy). -/
def Rule.asPolicy : Rule → Option Policy
  | .policy p => some p
  | _ => none

/-- ODP.community.Community: the aggregate root's lists. The three name
indexes are represented by build_indexes below, which either fails (the
ValueError raises of the source) or returns the populated maps. -/
structure Community where
  name : String
  objective : String := ""
  events : List Event := []
  artifacts : List Artifact := []
  roles : List CommunityRole := []
  rules : List Rule := []
deriving DecidableEq

/-- The three name-indexed maps produced by Community.build_indexes. -/
structure CommunityIndexes where
  role_index : List (String × CommunityRole)
  artifact_index : List (String × Artifact)
  event_index : List (String × Event)
deriving DecidableEq

/-- The loop body of each index build: insert under the name, raising
ValueError (modelled as .error with the message) when the name is present. -/
def indexInsert {α : Type} (idx : List (String × α)) (name : String) (x : α)
    (errMsg : String) : Except String (List (String × α)) :=
  if (idx.lookup name).isSome then .error errMsg
  else .ok (idx ++ [(name, x)])

/-- One indexing loop of Community.build_indexes over a list of named items. -/
def buildIndex {α : Type} (getName : α → String) (mkErr : String → String) :
    List α → List (String × α) → Except String (List (String × α))
  | [], idx => .ok idx
  | x :: rest, idx => do
    let idx2 ← indexInsert idx (getName x) x (mkErr (getName x))
    buildIndex getName mkErr rest idx2

/-- Community.build_indexes: populate the role, artifact and event indexes,
raising ValueError on a duplicate name (rendered here as Except.error). -/
def Community.build_indexes (c : Community) : Except String CommunityIndexes := do
  let ri ← buildIndex CommunityRole.name
    (fun n => s!"Duplicate role name {n} in community {c.name}") c.roles []
  let ai ← buildIndex Artifact.name
    (fun n => s!"Duplicate artifact name {n} in community {c.name}") c.artifacts []
  let ei ← buildIndex Event.name
    (fun n => s!"Duplicate event name {n} in community {c.name}") c.events []
  .ok ⟨ri, ai, ei⟩

/-- Community.get_role as the engine observes it: the hydrator only hands the
engine communities whose build_indexes succeeded, and on success the index
maps each name to the unique list element carrying it, i.e. the first match. -/
def Community.get_role (c : Community) (name : String) : Option CommunityRole :=
  c.roles.find? (fun r => r.name == name)

/-- Community.get_artifact, as for get_role. -/
def Community.get_artifact (c : Community) (name : String) : Option Artifact :=
  c.artifacts.find? (fun a => a.name == name)

/-- Community.get_event, as for get_role. -/
def Community.get_event (c : Community) (name : String) : Option Event :=
  c.events.find? (fun e => e.name == name)

/-- ODP.model.Model: the top-level container. -/
structure Model where
  simple_types : List SimpleType := []
  communities : List Community := []
deriving DecidableEq

mutual

/-- A runtime Python value as it can appear in kwargs, artifact properties and
token contexts: None, booleans, numbers, strings, parties and live artifact
instances. Numbers cover the int literals the engine writes (amount=500). -/
inductive Value where
  | none : Value
  | bool : Bool → Value
  | int : Int → Value
  | str : String → Value
  | party : Party → Value
  | artifact : ArtifactInstance → Value

/-- runtime.instances.ArtifactInstance: instance_id, template, properties. -/
inductive ArtifactInstance where
  | mk : String → Artifact → List (String × Value) → ArtifactInstance

end

/-- instance_id field accessor. -/
def ArtifactInstance.instance_id : ArtifactInstance → String
  | .mk i _ _ => i

/-- template field accessor. -/
def ArtifactInstance.template : ArtifactInstance → Artifact
  | .mk _ t _ => t

/-- properties field accessor. -/
def ArtifactInstance.properties : ArtifactInstance → List (String × Value)
  | .mk _ _ p => p

mutual

/-- Python == on runtime values: dataclass equality is structural, dict
equality compares key sets and the values under each key. -/
def Value.pyEq : Value → Value → Bool
  | .none, .none => true
  | .bool a, .bool b => a == b
  | .int a, .int b => a == b
  | .str a, .str b => a == b
  | .party a, .party b => a == b
  | .artifact a, .artifact b => ArtifactInstance.pyEq a b
  | _, _ => false

/-- Python == on ArtifactInstance: dataclass field-wise comparison. -/
def ArtifactInstance.pyEq : ArtifactInstance → ArtifactInstance → Bool
  | .mk i1 t1 p1, .mk i2 t2 p2 =>
    i1 == i2 && t1 == t2 && Value.pyEqProps p1 p2 && p1.length == p2.length

/-- Python dict == for property maps with unique keys: every key of the first
maps to an equal value in the second, and the key counts agree. -/
def Value.pyEqProps : List (String × Value) → List (String × Value) → Bool
  | [], _ => true
  | (k, v) :: rest, other =>
    (match other.lookup k with
     | some v2 => Value.pyEq v v2
     | Option.none => false)
    && Value.pyEqProps rest other

end

/-- Python truthiness of a runtime value: None and False are falsy, 0 and the
empty string are falsy, objects (parties, artifact instances) are truthy. -/
def Value.truthy : Value → Bool
  | .none => false
  | .bool b => b
  | .int n => n != 0
  | .str s => s ≠ ""
  | .party _ => true
  | .artifact _ => true

/-- A Python exception escaping to the driver. -/
inductive PyError where
  | attributeError (attr : String)
  | keyError (key : String)
  | typeError (msg : String)
  | indexError
deriving DecidableEq

/-- Python attribute access on a runtime value, as the engine exercises it:
instance_id is a plain dataclass attribute of ArtifactInstance, any other
name on an artifact goes through its properties dict (AttributeError when
absent, per ArtifactInstance.getattr fallback), a Party exposes its name,
and every other value raises AttributeError. -/
def Value.getattr (v : Value) (attr : String) : Except PyError Value :=
  match v with
  | .party p =>
    if attr == "name" then .ok (.str p.name) else .error (.attributeError attr)
  | .artifact a =>
    if attr == "instance_id" then .ok (.str a.instance_id)
    else
      match a.properties.lookup attr with
      | some w => .ok w
      | Option.none => .error (.attributeError attr)
  | _ => .error (.attributeError attr)

/-- Python repr of a runtime value, following the __repr__ methods of the
source (string escaping inside reprs is not modelled). -/
def Value.pyRepr : Value → String
  | .none => "None"
  | .bool true => "True"
  | .bool false => "False"
  | .int n => toString n
  | .str s => "'" ++ s ++ "'"
  | .party p =>
    "Party(name='" ++ p.name ++ "', fulfills_roles=" ++
      "[" ++ String.intercalate ", "
        (p.fulfills_roles.map (fun r => "'" ++ r.name ++ "'")) ++ "]" ++
      ", active_tokens=" ++ toString p.active_tokens.length ++ ")"
  | .artifact a =>
    "ArtifactInstance(id='" ++ a.instance_id ++ "', type='" ++
      a.template.name ++ "')"

/-- runtime.instances.DeonticTokenState. -/
inductive DeonticTokenState where
  | INACTIVE
  | ACTIVE
  | DISCHARGED
deriving DecidableEq

/-- The .name of the state enum member, as the tracer records it. -/
def DeonticTokenState.pyName : DeonticTokenState → String
  | .INACTIVE => "INACTIVE"
  | .ACTIVE => "ACTIVE"
  | .DISCHARGED => "DISCHARGED"

/-- runtime.instances.DeonticTokenInstance. The dataclass default for state
is INACTIVE and instance_id defaults to a fresh uuid-based string; the engine
constructs instances passing template, owner and context only. -/
structure DeonticTokenInstance where
  template : DeonticToken
  owner : Party
  instance_id : String
  state : DeonticTokenState
  context : List (String × Value)

/-- One runtime.tracer.SimulationTracer history entry, by event_type, with
the details dict of each log_... method (timestamps are not modelled). -/
inductive LogEntry where
  | action (party : Party) (action_name : String) (args : List (String × String))
  | actionProhibited (party : Party) (action_name : String) (reason : String)
  | tokenCreate (token_id : String) (template_name : String) (owner : Party)
  | tokenStateChange (token_id : String) (template_name : String)
      (owner : Party) (new_state : String) (trigger_event : String)
deriving DecidableEq

/-- Everything the Python guard-evaluation context determines: the engine
builds {**policy_values, **domain_functions, "self": party, **kwargs}, where
the two domain functions are closures over engine.artifacts; the context is
therefore represented by its determining data. -/
structure GuardContext where
  policy_values : List (String × PolicyValue)
  artifacts : List (String × ArtifactInstance)
  self_party : Party
  kwargs : List (String × Value)

/-- The ambient effects of a run: genId n is the n-th uuid4().hex[:6] draw,
evalGuard is Python eval of a raw guard string over a context (none when the
evaluation raises). The spec requires guards to be side-effect free, so
evalGuard does not touch engine state. -/
structure Oracle where
  genId : Nat → String
  evalGuard : String → GuardContext → Option Bool

/-- Guard.evaluate: try bool(eval(raw, context)) except → False. -/
def Guard.evaluate (o : Oracle) (g : Guard) (ctx : GuardContext) : Bool :=
  (o.evalGuard g.raw ctx).getD false

/-- Replace-or-append dict assignment d[k] = v (insertion order preserved). -/
def dictSet {α : Type} : List (String × α) → String → α → List (String × α)
  | [], k, v => [(k, v)]
  | (k', v') :: rest, k, v =>
    if k' == k then (k, v) :: rest else (k', v') :: dictSet rest k v

/-- Python del d[k] for a unique-keyed dict. -/
def dictDelete {α : Type} (d : List (String × α)) (k : String) :
    List (String × α) :=
  d.filter (fun kv => kv.1 != k)

/-- kwargs.get(k): None when the key is absent. -/
def kwget (kwargs : List (String × Value)) (k : String) : Value :=
  (kwargs.lookup k).getD Value.none

/-- runtime.engine.Engine state: the model, the runtime containers, the cached
policy values, the tracer history, and the count of uuid draws made so far. -/
structure Engine where
  model : Model
  policy_values : List (String × PolicyValue)
  parties : List (String × Party) := []
  artifacts : List (String × ArtifactInstance) := []
  tokens : List DeonticTokenInstance := []
  trace : List LogEntry := []
  uuidCount : Nat := 0

/-- The policy_values dict comprehension of Engine.__init__: every Policy rule
of every community, name to initial_value, later duplicates overwriting. -/
def mkPolicyValues (m : Model) : List (String × PolicyValue) :=
  ((m.communities.map (fun c => c.rules.filterMap Rule.asPolicy)).flatten).foldl
    (fun d p => dictSet d p.name p.initial_value) []

/-- Engine.__init__. -/
def Engine.init (m : Model) : Engine :=
  { model := m, policy_values := mkPolicyValues m }

/-- The loanCount domain function: Loan artifacts whose borrower == p. -/
def Engine.loanCount (e : Engine) (p : Party) : Nat :=
  (e.artifacts.filter (fun kv =>
    kv.2.template.name == "Loan" &&
    Value.pyEq ((kv.2.properties.lookup "borrower").getD .none) (.party p))).length

/-- The hasUnpaidFines domain function: a Fine with borrower == p, isPaid
falsy (getattr default True when the property is missing). -/
def Engine.hasUnpaidFines (e : Engine) (p : Party) : Bool :=
  e.artifacts.any (fun kv =>
    kv.2.template.name == "Fine" &&
    Value.pyEq ((kv.2.properties.lookup "borrower").getD .none) (.party p) &&
    !(((kv.2.properties.lookup "isPaid").map Value.truthy).getD true))

/-- Engine.create_party: duplicate names and unknown roles are logged to the
console and ignored; communities[0] raises IndexError on an empty model. -/
def Engine.create_party (e : Engine) (name : String) (role_names : List String) :
    Except PyError Engine :=
  if (e.parties.lookup name).isSome then .ok e
  else
    match e.model.communities with
    | [] => .error .indexError
    | c :: _ =>
      let roles := role_names.map (fun r => c.get_role r)
      if roles.all Option.isSome then
        .ok { e with parties :=
          e.parties ++ [(name, ⟨name, roles.reduceOption, []⟩)] }
      else .ok e

/-- Engine.create_artifact_instance: duplicate ids and unknown templates are
logged to the console and ignored. -/
def Engine.create_artifact_instance (e : Engine) (artifact_type : String)
    (iid : String) (properties : List (String × Value)) : Except PyError Engine :=
  if (e.artifacts.lookup iid).isSome then .ok e
  else
    match e.model.communities with
    | [] => .error .indexError
    | c :: _ =>
      match c.get_artifact artifact_type with
      | Option.none => .ok e
      | some template =>
        .ok { e with artifacts :=
          e.artifacts ++ [(iid, .mk iid template properties)] }

/-- Inner loop of Engine._resolve_token_owner: first Party among an artifact's
property values fulfilling the named role. -/
def findRolePartyInProps (role_name : String) :
    List (String × Value) → Option Party
  | [] => Option.none
  | (_, .party p) :: rest =>
    if p.has_role role_name then some p
    else findRolePartyInProps role_name rest
  | _ :: rest => findRolePartyInProps role_name rest

/-- Outer loop of Engine._resolve_token_owner over kwargs values in insertion
order: a Party with the role wins; an ArtifactInstance is searched for one. -/
def findRolePartyInArgs (role_name : String) : List (String × Value) → Option Party
  | [] => Option.none
  | (_, .party p) :: rest =>
    if p.has_role role_name then some p
    else findRolePartyInArgs role_name rest
  | (_, .artifact a) :: rest =>
    match findRolePartyInProps role_name a.properties with
    | some p => some p
    | Option.none => findRolePartyInArgs role_name rest
  | _ :: rest => findRolePartyInArgs role_name rest

/-- Engine._resolve_token_owner: performer unless the template names an
affected_role and a matching Party is found in the action's arguments. -/
def resolve_token_owner (token_template : DeonticToken) (performer : Party)
    (action_args : List (String × Value)) : Party :=
  match token_template.affected_role with
  | Option.none => performer
  | some role_name =>
    (findRolePartyInArgs role_name action_args).getD performer

/-- token.template.activation_trigger == event with a possibly-None trigger:
None never equals an Event. -/
def optEventEq (trigger : Option Event) (ev : Event) : Bool :=
  match trigger with
  | Option.none => false
  | some e => e == ev

/-- The per-token body of Engine._fire_event: an INACTIVE token whose
activation_trigger is the fired event becomes ACTIVE; otherwise (elif) an
ACTIVE token whose finish_expression holds on the one-event occurrence set
becomes DISCHARGED; each branch logs the transition with the event's name. -/
def fireTokenStep (ev : Event) (t : DeonticTokenInstance) :
    DeonticTokenInstance × Option LogEntry :=
  if t.state == .INACTIVE && optEventEq t.template.activation_trigger ev then
    let t2 := { t with state := .ACTIVE }
    (t2, some (.tokenStateChange t2.instance_id t2.template.name t2.owner
      t2.state.pyName ev.name))
  else if t.state == .ACTIVE then
    match t.template.finish_expression with
    | some fe =>
      if fe.evaluate [ev] then
        let t2 := { t with state := .DISCHARGED }
        (t2, some (.tokenStateChange t2.instance_id t2.template.name t2.owner
          t2.state.pyName ev.name))
      else (t, Option.none)
    | Option.none => (t, Option.none)
  else (t, Option.none)

/-- Engine._fire_event: process every token in order with the single-event
occurrence set; no cascading. -/
def Engine.fire_event (e : Engine) (ev : Event) : Engine :=
  let steps := e.tokens.map (fireTokenStep ev)
  { e with tokens := steps.map Prod.fst,
           trace := e.trace ++ steps.filterMap Prod.snd }

/-- The embargo screen of Engine.perform_action: the first token owned by the
party, ACTIVE, and of the Embargo class (the hydrator creates templates via
the Burden/Permit/Embargo subclasses, so the class is the token_type tag). -/
def findActiveEmbargo (tokens : List DeonticTokenInstance) (party : Party) :
    Option DeonticTokenInstance :=
  tokens.find? (fun t =>
    t.owner == party && t.state == .ACTIVE && t.template.token_type == .EMBARGO)

/-- The built-in side effects of Engine.perform_action for borrowItem,
returnItem and fineBorrower; other action names have none. Returns the
engine and the (possibly augmented) kwargs. -/
def Engine.apply_builtin (o : Oracle) (e : Engine) (party : Party)
    (action : Action) (kwargs : List (String × Value)) :
    Except PyError (Engine × List (String × Value)) :=
  if action.name == "borrowItem" then
    let loan_id := "loan-" ++ o.genId e.uuidCount
    let e1 := { e with uuidCount := e.uuidCount + 1 }
    let props := [("item", kwget kwargs "item"), ("borrower", Value.party party),
                  ("isOverdue", Value.bool false)]
    match e1.create_artifact_instance "Loan" loan_id props with
    | .error er => .error er
    | .ok e2 =>
      match e2.artifacts.lookup loan_id with
      | some a => .ok (e2, dictSet kwargs "loan" (.artifact a))
      | Option.none => .error (.keyError loan_id)
  else if action.name == "returnItem" then
    match kwget kwargs "loan" with
    | .artifact a =>
      if (e.artifacts.lookup a.instance_id).isSome then
        .ok ({ e with artifacts := dictDelete e.artifacts a.instance_id }, kwargs)
      else .ok (e, kwargs)
    | v =>
      if v.truthy then .error (.attributeError "instance_id")
      else .ok (e, kwargs)
  else if action.name == "fineBorrower" then
    let loan := kwget kwargs "loan"
    let fine_id := "fine-" ++ o.genId e.uuidCount
    let e1 := { e with uuidCount := e.uuidCount + 1 }
    match loan.getattr "borrower" with
    | .error er => .error er
    | .ok borrower =>
      let props := [("borrower", borrower), ("loan", loan),
                    ("amount", Value.int 500), ("isPaid", Value.bool false)]
      match e1.create_artifact_instance "Fine" fine_id props with
      | .error er => .error er
      | .ok e2 =>
        match e2.artifacts.lookup fine_id with
        | some a => .ok (e2, dictSet kwargs "fine" (.artifact a))
        | Option.none => .error (.keyError fine_id)
  else .ok (e, kwargs)

/-- The token-search condition of the Delegation branch: owned by the
performer, matching template name, ACTIVE, and context["loan"] equal under
Python == (both sides None when absent). -/
def delegationMatch (party : Party) (token_name : String) (loan_context : Value)
    (t : DeonticTokenInstance) : Bool :=
  t.owner == party && t.template.name == token_name &&
  t.state == .ACTIVE && Value.pyEq (kwget t.context "loan") loan_context

/-- First token (with its position) satisfying the delegation search. -/
def findDelegationToken (party : Party) (token_name : String)
    (loan_context : Value) : List DeonticTokenInstance → Nat →
    Option (Nat × DeonticTokenInstance)
  | [], _ => Option.none
  | t :: rest, i =>
    if delegationMatch party token_name loan_context t then some (i, t)
    else findDelegationToken party token_name loan_context rest (i + 1)

/-- The Delegation branch of Engine.perform_action. Result none models the
bare return of the failed role check (which aborts the rest of the call);
some e continues the call with the possibly updated engine. A missing or
falsy kwargs agent raises AttributeError from the error message f-string,
a null action.agent raises from action.agent.name, and a truthy non-Party
agent raises from the has_role call. -/
def Engine.perform_delegation (e : Engine) (party : Party) (action : Action)
    (token_name : String) (agent : Option String)
    (kwargs : List (String × Value)) : Except PyError (Option Engine) :=
  let new_owner := kwget kwargs "agent"
  let loan_context := kwget kwargs "loan"
  if !new_owner.truthy then
    match new_owner.getattr "name" with
    | .error er => .error er
    | .ok _ => .ok Option.none
  else
    match agent with
    | Option.none => .error (.attributeError "name")
    | some agent_role_name =>
      match new_owner with
      | .party p =>
        if !(p.has_role agent_role_name) then .ok Option.none
        else
          match findDelegationToken party token_name loan_context e.tokens 0 with
          | some (i, t) =>
            let t2 := { t with owner := p }
            .ok (some { e with
              tokens := e.tokens.set i t2,
              trace := e.trace ++ [.tokenStateChange t2.instance_id
                t2.template.name t2.owner t2.state.pyName
                ("delegated via " ++ action.name)] })
          | Option.none => .ok (some e)
      | .artifact a =>
        match a.properties.lookup "has_role" with
        | some _ => .error (.typeError "has_role")
        | Option.none => .error (.attributeError "has_role")
      | _ => .error (.attributeError "has_role")

/-- The SpeechAct branch of Engine.perform_action: one DeonticTokenInstance
per template, owner resolved from the (post-built-in) kwargs, fresh uuid id,
dataclass-default state INACTIVE, context = kwargs; each creation is traced. -/
def Engine.mint_tokens (o : Oracle) (party : Party)
    (kwargs : List (String × Value)) :
    Engine → List DeonticToken → Engine
  | e, [] => e
  | e, tt :: rest =>
    let owner := resolve_token_owner tt party kwargs
    let iid := "token-" ++ o.genId e.uuidCount
    let token : DeonticTokenInstance :=
      ⟨tt, owner, iid, .INACTIVE, kwargs⟩
    Engine.mint_tokens o party kwargs
      { e with uuidCount := e.uuidCount + 1,
               tokens := e.tokens ++ [token],
               trace := e.trace ++ [.tokenCreate iid tt.name owner] } rest

/-- The permitted tail of Engine.perform_action, entered after the embargo and
guard screens pass: log the ACTION, run the built-in side effect, run the
Delegation branch, mint speech-act tokens, and emit the trigger event. -/
def Engine.perform_action_permitted (o : Oracle) (e : Engine) (party : Party)
    (action : Action) (kwargs : List (String × Value)) :
    Except PyError Engine :=
  let e0 := { e with trace := e.trace ++
    [LogEntry.action party action.name
      (kwargs.map (fun kv : String × Value => (kv.1, kv.2.pyRepr)))] }
  match e0.apply_builtin o party action kwargs with
  | .error er => .error er
  | .ok (e1, kwargs1) =>
    let afterDeleg : Except PyError (Option Engine) :=
      match action.kind with
      | .delegation _ _ token_name agent =>
        e1.perform_delegation party action token_name agent kwargs1
      | _ => .ok (some e1)
    match afterDeleg with
    | .error er => .error er
    | .ok Option.none => .ok e1
    | .ok (some e2) =>
      let e3 :=
        match action.speechActTokens with
        | some ts => Engine.mint_tokens o party kwargs1 e2 ts
        | Option.none => e2
      .ok (match action.trigger_event with
        | some ev => e3.fire_event ev
        | Option.none => e3)

/-- Engine.perform_action: resolve the party and the action (driver misuse is
ignored), run the embargo screen, then the guard screen, then the permitted
tail. -/
def Engine.perform_action (o : Oracle) (e : Engine) (party_name : String)
    (action_name : String) (kwargs : List (String × Value)) :
    Except PyError Engine :=
  match e.parties.lookup party_name with
  | Option.none => .ok e
  | some party =>
    match party.get_action action_name with
    | Option.none => .ok e
    | some action =>
      match findActiveEmbargo e.tokens party with
      | some t =>
        .ok { e with trace := e.trace ++ [.actionProhibited party action_name
          ("Active embargo '" ++ t.template.name ++ "'")] }
      | Option.none =>
        match action.guard with
        | some g =>
          if g.evaluate o ⟨e.policy_values, e.artifacts, party, kwargs⟩ then
            e.perform_action_permitted o party action kwargs
          else
            .ok { e with trace := e.trace ++ [.actionProhibited party
              action.name ("Guard failed: " ++ g.raw)] }
        | Option.none => e.perform_action_permitted o party action kwargs

/-- One driver invocation of the engine API (§6.2). -/
inductive DriverCall where
  | createParty (name : String) (role_names : List String)
  | createArtifact (artifact_type : String) (iid : String)
      (properties : List (String × Value))
  | performAction (party_name : String) (action_name : String)
      (kwargs : List (String × Value))

/-- Dispatch one driver call. -/
def Engine.step (o : Oracle) (e : Engine) : DriverCall → Except PyError Engine
  | .createParty n rs => e.create_party n rs
  | .createArtifact ty iid props => e.create_artifact_instance ty iid props
  | .performAction pn an kwargs => e.perform_action o pn an kwargs

/-- Run a sequence of driver calls; an escaped exception ends the run. -/
def Engine.run (o : Oracle) (e : Engine) : List DriverCall → Except PyError Engine
  | [] => .ok e
  | c :: rest =>
    match e.step o c with
    | .error er => .error er
    | .ok e2 => e2.run o rest

/-! Extractors and small observations used to state claims about runs. -/

/-- The token population of a run result (empty when an exception escaped). -/
def tokensOf : Except PyError Engine → List DeonticTokenInstance
  | .ok e => e.tokens
  | .error _ => []

/-- The tracer history of a run result (empty when an exception escaped). -/
def traceOf : Except PyError Engine → List LogEntry
  | .ok e => e.trace
  | .error _ => []

/-- The artifact store of a run result (empty when an exception escaped). -/
def artifactsOf : Except PyError Engine → List (String × ArtifactInstance)
  | .ok e => e.artifacts
  | .error _ => []

/-- The engine of a successful result, with a fallback for errors. -/
def okOr (r : Except PyError Engine) (d : Engine) : Engine :=
  match r with
  | .ok e => e
  | .error _ => d


/-- Position of a state in the lifecycle order INACTIVE, ACTIVE, DISCHARGED. -/
def stateRank : DeonticTokenState → Nat
  | .INACTIVE => 0
  | .ACTIVE => 1
  | .DISCHARGED => 2

/-- Tokenwise monotonicity between two token populations: nothing is removed,
and the token at each surviving position keeps its template, never decreases
in lifecycle rank, and never leaves DISCHARGED. -/
def TokMono (l l2 : List DeonticTokenInstance) : Prop :=
  l.length ≤ l2.length ∧
  ∀ (i : Nat) (t t2 : DeonticTokenInstance), l[i]? = some t → l2[i]? = some t2 →
    t2.template = t.template ∧ stateRank t.state ≤ stateRank t2.state ∧
    (t.state = DeonticTokenState.DISCHARGED →
      t2.state = DeonticTokenState.DISCHARGED)

/-- Whether a trace entry is an ACTION_PROHIBITED record. -/
def LogEntry.isActionProhibited : LogEntry → Bool
  | .actionProhibited _ _ _ => true
  | _ => false

/-- Whether a trace entry is an ACTION record for the given party. -/
def LogEntry.isActionOf (p : Party) : LogEntry → Bool
  | .action q _ _ => q == p
  | _ => false

/-- Whether a trace entry is a TOKEN_CREATE record. -/
def LogEntry.isTokenCreate : LogEntry → Bool
  | .tokenCreate _ _ _ => true
  | _ => false

/-! Concrete fixture: a small library model exercising each action variant,
used by the counterexamples and the witnesses below. -/

/-- Fixture event. -/
def evA : Event := ⟨"itemBorrowed", []⟩

/-- Fixture burden template without activation trigger or finish expression. -/
def ttNoTrig : DeonticToken := { token_type := .BURDEN, name := "return_item" }

/-- Fixture burden template whose finish expression is the single event evA. -/
def ttOther : DeonticToken :=
  { token_type := .BURDEN, name := "other_burden",
    finish_expression := some (.node Option.none [Sum.inr evA]) }

/-- Fixture embargo template. -/
def ttEmbargo : DeonticToken := { token_type := .EMBARGO, name := "suspended" }

/-- Fixture burden template with activation trigger evA and a finish
expression already satisfied by evA alone. -/
def ttTrigFin : DeonticToken :=
  { token_type := .BURDEN, name := "escrow",
    activation_trigger := some evA,
    finish_expression := some (.node Option.none [Sum.inr evA]) }

/-- Fixture speech act minting one trigger-less burden. -/
def actGrant : Action := { name := "grant", kind := .speechAct [ttNoTrig] }

/-- Fixture delegation of the return_item burden to a ProxyBorrower. -/
def actDelegate : Action :=
  { name := "return_item_delegation",
    kind := .delegation [] .BURDEN "return_item" (some "ProxyBorrower") }

/-- Fixture delegation that additionally emits evA. -/
def actDelegTrig : Action :=
  { name := "delegation_with_event", trigger_event := some evA,
    kind := .delegation [] .BURDEN "return_item" (some "ProxyBorrower") }

/-- Fixture basic action guarded by a raw expression. -/
def actGuarded : Action :=
  { name := "audit", guard := some ⟨"False"⟩, kind := .basic Option.none }

/-- Fixture role able to perform the four fixture actions. -/
def roleBorrower : CommunityRole :=
  { name := "Borrower",
    actions := [actGrant, actDelegate, actDelegTrig, actGuarded] }

/-- Fixture recipient role for delegations. -/
def roleProxy : CommunityRole := { name := "ProxyBorrower" }

/-- Fixture community. -/
def libCommunity : Community :=
  { name := "Library", roles := [roleBorrower, roleProxy] }

/-- Fixture model. -/
def libModel : Model := { communities := [libCommunity] }

/-- Fixture oracle: uuid draws are all aaaaaa, eval of any guard raises. -/
def oracleA : Oracle := ⟨fun _ => "aaaaaa", fun _ _ => Option.none⟩

/-- Fixture oracle differing from oracleA only in its uuid draws. -/
def oracleB : Oracle := ⟨fun _ => "bbbbbb", fun _ _ => Option.none⟩

/-- Fixture party fulfilling Borrower. -/
def alice : Party := ⟨"Alice", [roleBorrower], []⟩

/-- Fixture party fulfilling ProxyBorrower. -/
def bob : Party := ⟨"Bob", [roleProxy], []⟩

/-- Fixture run for claim C1: create Alice, perform the speech act grant,
minting one token from the trigger-less template ttNoTrig. -/
def c1Run : Except PyError Engine :=
  (Engine.init libModel).run oracleA
    [.createParty "Alice" ["Borrower"], .performAction "Alice" "grant" []]

/-- Fixture active embargo instance held by Alice. -/
def tokEmb : DeonticTokenInstance := ⟨ttEmbargo, alice, "token-e", .ACTIVE, []⟩

/-- Fixture engine state in which Alice holds the active embargo. -/
def eEmb : Engine :=
  { model := libModel, policy_values := [],
    parties := [("Alice", alice)], tokens := [tokEmb] }

/-- Fixture engine state with Alice and no tokens. -/
def ePlain : Engine :=
  { model := libModel, policy_values := [], parties := [("Alice", alice)] }

/-- Fixture call for claim C3: a delegation whose recipient lacks the
required role (Alice does not fulfill ProxyBorrower). -/
def c3Run : Except PyError Engine :=
  ePlain.perform_action oracleA "Alice" "return_item_delegation"
    [("agent", Value.party alice)]

/-- Fixture delegatable burden instance: active return_item owned by Alice. -/
def tokDeleg : DeonticTokenInstance := ⟨ttNoTrig, alice, "token-d", .ACTIVE, []⟩

/-- Fixture bystander burden instance whose finish expression is evA. -/
def tokOther : DeonticTokenInstance := ⟨ttOther, alice, "token-o", .ACTIVE, []⟩

/-- Fixture engine state for claim C2: two active tokens, Alice and Bob. -/
def eC2 : Engine :=
  { model := libModel, policy_values := [],
    parties := [("Alice", alice), ("Bob", bob)],
    tokens := [tokDeleg, tokOther] }

/-- Fixture call for claim C2: a successful delegation to Bob through an
action that also emits evA. -/
def c2Run : Except PyError Engine :=
  eC2.perform_action oracleA "Alice" "delegation_with_event"
    [("agent", Value.party bob)]

/-- Fixture engine state eC2 right after the ACTION entry of a delegation of
return_item to Bob has been traced (the state the built-in step hands to the
delegation branch). -/
def eC2b : Engine :=
  { eC2 with trace := [LogEntry.action alice "return_item_delegation"
      [("agent", (Value.party bob).pyRepr)]] }

/-- Fixture run for claim C7: the same calls as c1Run under the oracle whose
uuid draws differ. -/
def c7RunB : Except PyError Engine :=
  (Engine.init libModel).run oracleB
    [.createParty "Alice" ["Borrower"], .performAction "Alice" "grant" []]

/-- Fixture run for claim C8: a delegation performed without an agent keyword
argument. -/
def c8Run : Except PyError Engine :=
  (Engine.init libModel).run oracleA
    [.createParty "Alice" ["Borrower"],
     .performAction "Alice" "return_item_delegation" []]

/-- Fixture policy with initial value 3. -/
def polA : Policy := ⟨"maxLoans", "number", ⟨"Librarian"⟩, .num 3, ⟨[]⟩⟩

/-- Fixture policy with the same name as polA and initial value 5. -/
def polB : Policy := ⟨"maxLoans", "number", ⟨"Librarian"⟩, .num 5, ⟨[]⟩⟩

/-- Fixture community holding two policies with the same name. -/
def dupPolCommunity : Community :=
  { name := "Fines", rules := [.policy polA, .policy polB] }

/-- Fixture model holding the duplicate-policy community. -/
def dupPolModel : Model := { communities := [dupPolCommunity] }

/-- Fixture community with two roles sharing a name. -/
def dupRoleCommunity : Community :=
  { name := "Twice", roles := [{ name := "R" }, { name := "R" }] }

/-- Fixture token instance for claim C10: inactive, trigger evA, finish
expression already satisfied by evA. -/
def tokTrigFin : DeonticTokenInstance :=
  ⟨ttTrigFin, alice, "token-t", .INACTIVE, []⟩

/-- Fixture engine state for claim C10. -/
def eC10 : Engine :=
  { model := libModel, policy_values := [],
    parties := [("Alice", alice)], tokens := [tokTrigFin] }

/-- Fixture artifact template. -/
def artBook : Artifact := { name := "LibraryItem" }

/-- Fixture engine state holding one artifact instance. -/
def eArt : Engine :=
  { model := libModel, policy_values := [],
    parties := [("Alice", alice)],
    artifacts := [("book-001", .mk "book-001" artBook [])] }

/-! Helper lemmas shared by the claim theorems. -/

/-- A findSome? hit comes from some list element. -/
theorem findSome_exists {α β : Type} (f : α → Option β) (l : List α) (b : β)
    (h : l.findSome? f = some b) : ∃ a ∈ l, f a = some b := by
  induction l with
  | nil => simp [List.findSome?] at h
  | cons x xs ih =>
    cases hfx : f x with
    | some y =>
      simp [List.findSome?, hfx] at h
      exact ⟨x, by simp, by rw [hfx, h]⟩
    | none =>
      simp [List.findSome?, hfx] at h
      obtain ⟨a, ha, hfa⟩ := ih h
      exact ⟨a, by simp [ha], hfa⟩

/-- An action found via Party.get_action carries the requested name. -/
theorem get_action_name (p : Party) (an : String) (a : Action)
    (h : p.get_action an = some a) : a.name = an := by
  unfold Party.get_action at h
  obtain ⟨r, _, hfind⟩ := findSome_exists _ _ _ h
  unfold CommunityRole.get_action at hfind
  have hb := List.find?_some hfind
  simp only [beq_iff_eq] at hb
  exact hb

/-- Shape of the minting loop: it appends instances, each created INACTIVE,
and touches no other engine container. -/
theorem mint_tokens_shape (o : Oracle) (party : Party)
    (kwargs : List (String × Value)) (ts : List DeonticToken) (e : Engine) :
    (∃ news, (Engine.mint_tokens o party kwargs e ts).tokens = e.tokens ++ news
       ∧ ∀ t ∈ news, t.state = DeonticTokenState.INACTIVE)
    ∧ (Engine.mint_tokens o party kwargs e ts).parties = e.parties
    ∧ (Engine.mint_tokens o party kwargs e ts).artifacts = e.artifacts
    ∧ (Engine.mint_tokens o party kwargs e ts).model = e.model
    ∧ (Engine.mint_tokens o party kwargs e ts).policy_values = e.policy_values := by
  induction ts generalizing e with
  | nil => exact ⟨⟨[], by simp [Engine.mint_tokens], by simp⟩, rfl, rfl, rfl, rfl⟩
  | cons tt rest ih =>
    obtain ⟨⟨news, hn, hs⟩, hp, ha, hm, hpv⟩ := ih
      { e with uuidCount := e.uuidCount + 1,
               tokens := e.tokens ++
                 [⟨tt, resolve_token_owner tt party kwargs,
                   "token-" ++ o.genId e.uuidCount, .INACTIVE, kwargs⟩],
               trace := e.trace ++ [.tokenCreate ("token-" ++ o.genId e.uuidCount)
                 tt.name (resolve_token_owner tt party kwargs)] }
    refine ⟨⟨⟨tt, resolve_token_owner tt party kwargs,
        "token-" ++ o.genId e.uuidCount, .INACTIVE, kwargs⟩ :: news, ?_, ?_⟩,
      hp, ha, hm, hpv⟩
    · rw [show Engine.mint_tokens o party kwargs e (tt :: rest) =
        Engine.mint_tokens o party kwargs
          { e with uuidCount := e.uuidCount + 1,
                   tokens := e.tokens ++
                     [⟨tt, resolve_token_owner tt party kwargs,
                       "token-" ++ o.genId e.uuidCount, .INACTIVE, kwargs⟩],
                   trace := e.trace ++
                     [.tokenCreate ("token-" ++ o.genId e.uuidCount)
                       tt.name (resolve_token_owner tt party kwargs)] } rest
        from rfl, hn]
      simp
    · intro t ht
      rcases List.mem_cons.mp ht with h1 | h2
      · rw [h1]
      · exact hs t h2

/-- Engine.create_party leaves everything but the parties dict unchanged. -/
theorem create_party_preserves (e : Engine) (n : String) (rs : List String)
    (e2 : Engine) (h : e.create_party n rs = .ok e2) :
    e2.tokens = e.tokens ∧ e2.artifacts = e.artifacts ∧ e2.trace = e.trace ∧
    e2.model = e.model ∧ e2.policy_values = e.policy_values := by
  unfold Engine.create_party at h
  split at h
  · cases h
    exact ⟨rfl, rfl, rfl, rfl, rfl⟩
  · split at h
    · cases h
    · dsimp only at h
      split at h
      · cases h
        exact ⟨rfl, rfl, rfl, rfl, rfl⟩
      · cases h
        exact ⟨rfl, rfl, rfl, rfl, rfl⟩

/-- Engine.create_artifact_instance leaves everything but the artifact dict
unchanged. -/
theorem create_artifact_preserves (e : Engine) (ty iid : String)
    (props : List (String × Value)) (e2 : Engine)
    (h : e.create_artifact_instance ty iid props = .ok e2) :
    e2.tokens = e.tokens ∧ e2.parties = e.parties ∧ e2.trace = e.trace ∧
    e2.model = e.model ∧ e2.policy_values = e.policy_values ∧
    e2.uuidCount = e.uuidCount := by
  unfold Engine.create_artifact_instance at h
  split at h
  · cases h
    exact ⟨rfl, rfl, rfl, rfl, rfl, rfl⟩
  · split at h
    · cases h
    · split at h
      · cases h
        exact ⟨rfl, rfl, rfl, rfl, rfl, rfl⟩
      · cases h
        exact ⟨rfl, rfl, rfl, rfl, rfl, rfl⟩

/-- The built-in side effects touch only artifacts, kwargs and the uuid
counter: tokens, parties, trace and the static data survive. -/
theorem apply_builtin_preserves (o : Oracle) (e : Engine) (party : Party)
    (action : Action) (kwargs : List (String × Value)) (e1 : Engine)
    (kwargs1 : List (String × Value))
    (h : e.apply_builtin o party action kwargs = .ok (e1, kwargs1)) :
    e1.tokens = e.tokens ∧ e1.parties = e.parties ∧ e1.trace = e.trace ∧
    e1.model = e.model ∧ e1.policy_values = e.policy_values := by
  unfold Engine.apply_builtin at h
  by_cases hb : (action.name == "borrowItem") = true
  · rw [if_pos hb] at h
    dsimp only at h
    cases hc : ({ e with uuidCount := e.uuidCount + 1 } :
        Engine).create_artifact_instance "Loan" ("loan-" ++ o.genId e.uuidCount)
        [("item", kwget kwargs "item"), ("borrower", Value.party party),
         ("isOverdue", Value.bool false)] with
    | error er =>
      rw [hc] at h
      dsimp only at h
      cases h
    | ok e2 =>
      rw [hc] at h
      dsimp only at h
      cases hl : List.lookup ("loan-" ++ o.genId e.uuidCount) e2.artifacts with
      | none =>
        rw [hl] at h
        dsimp only at h
        cases h
      | some a =>
        rw [hl] at h
        dsimp only at h
        cases h
        obtain ⟨ht, hp, htr, hm, hpv, _⟩ :=
          create_artifact_preserves _ _ _ _ _ hc
        exact ⟨ht, hp, htr, hm, hpv⟩
  · rw [if_neg hb] at h
    by_cases hr : (action.name == "returnItem") = true
    · rw [if_pos hr] at h
      cases hv : kwget kwargs "loan" with
      | artifact a =>
        rw [hv] at h
        dsimp only at h
        by_cases hin : (List.lookup a.instance_id e.artifacts).isSome = true
        · rw [if_pos hin] at h
          cases h
          exact ⟨rfl, rfl, rfl, rfl, rfl⟩
        · rw [if_neg hin] at h
          cases h
          exact ⟨rfl, rfl, rfl, rfl, rfl⟩
      | none =>
        rw [hv] at h
        dsimp only at h
        simp only [Value.truthy, Bool.false_eq_true, if_false] at h
        cases h
        exact ⟨rfl, rfl, rfl, rfl, rfl⟩
      | bool b =>
        rw [hv] at h
        dsimp only at h
        by_cases htru : (Value.bool b).truthy = true
        · rw [if_pos htru] at h; cases h
        · rw [if_neg htru] at h
          cases h
          exact ⟨rfl, rfl, rfl, rfl, rfl⟩
      | int n =>
        rw [hv] at h
        dsimp only at h
        by_cases htru : (Value.int n).truthy = true
        · rw [if_pos htru] at h; cases h
        · rw [if_neg htru] at h
          cases h
          exact ⟨rfl, rfl, rfl, rfl, rfl⟩
      | str s =>
        rw [hv] at h
        dsimp only at h
        by_cases htru : (Value.str s).truthy = true
        · rw [if_pos htru] at h; cases h
        · rw [if_neg htru] at h
          cases h
          exact ⟨rfl, rfl, rfl, rfl, rfl⟩
      | party p =>
        rw [hv] at h
        dsimp only at h
        simp only [Value.truthy, if_true] at h
        cases h
    · rw [if_neg hr] at h
      by_cases hf : (action.name == "fineBorrower") = true
      · rw [if_pos hf] at h
        dsimp only at h
        cases hba : (kwget kwargs "loan").getattr "borrower" with
        | error er =>
          rw [hba] at h
          dsimp only at h
          cases h
        | ok borrower =>
          rw [hba] at h
          dsimp only at h
          cases hc : ({ e with uuidCount := e.uuidCount + 1 } :
              Engine).create_artifact_instance "Fine"
              ("fine-" ++ o.genId e.uuidCount)
              [("borrower", borrower), ("loan", kwget kwargs "loan"),
               ("amount", Value.int 500), ("isPaid", Value.bool false)] with
          | error er =>
            rw [hc] at h
            dsimp only at h
            cases h
          | ok e2 =>
            rw [hc] at h
            dsimp only at h
            cases hl : List.lookup ("fine-" ++ o.genId e.uuidCount)
                e2.artifacts with
            | none =>
              rw [hl] at h
              dsimp only at h
              cases h
            | some a =>
              rw [hl] at h
              dsimp only at h
              cases h
              obtain ⟨ht, hp, htr, hm, hpv, _⟩ :=
                create_artifact_preserves _ _ _ _ _ hc
              exact ⟨ht, hp, htr, hm, hpv⟩
      · rw [if_neg hf] at h
        cases h
        exact ⟨rfl, rfl, rfl, rfl, rfl⟩

/-- A delegation search hit is a real token at the reported position, and it
satisfies the search condition. -/
theorem findDelegationToken_spec (party : Party) (tn : String) (lc : Value) :
    ∀ (l : List DeonticTokenInstance) (n i : Nat) (t : DeonticTokenInstance),
      findDelegationToken party tn lc l n = some (i, t) →
      n ≤ i ∧ l[i - n]? = some t ∧ delegationMatch party tn lc t = true := by
  intro l
  induction l with
  | nil => intro n i t h; simp [findDelegationToken] at h
  | cons x xs ih =>
    intro n i t h
    unfold findDelegationToken at h
    split at h
    · rename_i hm
      cases h
      exact ⟨Nat.le_refl n, by simp, hm⟩
    · obtain ⟨hle, hget, hmatch⟩ := ih (n + 1) i t h
      refine ⟨Nat.le_of_succ_le hle, ?_, hmatch⟩
      have hik : i - n = (i - (n + 1)) + 1 := by omega
      rw [hik]
      simpa using hget

/-- The Delegation branch preserves the token count and, at every position,
the token's template, state and context; only an owner may change. The other
engine containers except trace and tokens are untouched. -/
theorem perform_delegation_tokens (e : Engine) (party : Party)
    (action : Action) (tn : String) (agent : Option String)
    (kwargs : List (String × Value)) (e2 : Engine)
    (h : e.perform_delegation party action tn agent kwargs = .ok (some e2)) :
    e2.tokens.length = e.tokens.length ∧
    (∀ (j : Nat) (t t2 : DeonticTokenInstance),
      e.tokens[j]? = some t → e2.tokens[j]? = some t2 →
      t2.template = t.template ∧ t2.state = t.state ∧ t2.context = t.context) ∧
    e2.parties = e.parties ∧ e2.artifacts = e.artifacts ∧
    e2.model = e.model ∧ e2.policy_values = e.policy_values := by
  unfold Engine.perform_delegation at h
  dsimp only at h
  by_cases htru : (!(kwget kwargs "agent").truthy) = true
  · rw [if_pos htru] at h
    cases hg : (kwget kwargs "agent").getattr "name" with
    | error er =>
      rw [hg] at h
      dsimp only at h
      cases h
    | ok a =>
      rw [hg] at h
      dsimp only at h
      simp at h
  · rw [if_neg htru] at h
    cases agent with
    | none =>
      dsimp only at h
      cases h
    | some ar =>
      dsimp only at h
      cases hv : kwget kwargs "agent" with
      | party p =>
        rw [hv] at h
        dsimp only at h
        by_cases hrole : (!p.has_role ar) = true
        · rw [if_pos hrole] at h
          simp at h
        · rw [if_neg hrole] at h
          cases hf : findDelegationToken party tn (kwget kwargs "loan")
              e.tokens 0 with
          | some it =>
            obtain ⟨i, t⟩ := it
            rw [hf] at h
            dsimp only at h
            cases h
            obtain ⟨-, hget, -⟩ :=
              findDelegationToken_spec party tn _ e.tokens 0 i t hf
            simp only [Nat.sub_zero] at hget
            refine ⟨List.length_set .., ?_, rfl, rfl, rfl, rfl⟩
            intro j u u2 hu hu2
            by_cases hij : i = j
            · subst hij
              have hi : i < e.tokens.length := by
                by_contra hge
                rw [List.getElem?_eq_none (by omega)] at hget
                cases hget
              rw [List.getElem?_set_self hi] at hu2
              rw [hget] at hu
              cases hu
              cases hu2
              exact ⟨rfl, rfl, rfl⟩
            · rw [List.getElem?_set_ne hij] at hu2
              rw [hu] at hu2
              cases hu2
              exact ⟨rfl, rfl, rfl⟩
          | none =>
            rw [hf] at h
            dsimp only at h
            cases h
            exact ⟨rfl, fun j u u2 hu hu2 => by
              rw [hu] at hu2; cases hu2; exact ⟨rfl, rfl, rfl⟩,
              rfl, rfl, rfl, rfl⟩
      | artifact a =>
        rw [hv] at h
        dsimp only at h
        cases hl : a.properties.lookup "has_role" with
        | some w =>
          rw [hl] at h
          dsimp only at h
          cases h
        | none =>
          rw [hl] at h
          dsimp only at h
          cases h
      | none =>
        rw [hv] at h
        dsimp only at h
        cases h
      | bool b =>
        rw [hv] at h
        dsimp only at h
        cases h
      | int n =>
        rw [hv] at h
        dsimp only at h
        cases h
      | str s =>
        rw [hv] at h
        dsimp only at h
        cases h

/-- Index bound extracted from a getElem? hit. -/
theorem getElem?_lt {α : Type} (l : List α) (i : Nat) (t : α)
    (h : l[i]? = some t) : i < l.length := by
  rw [List.getElem?_eq_some] at h
  exact h.1

/-- Each _fire_event step leaves a token alone, activates an INACTIVE one, or
discharges an ACTIVE one; no other transition exists. -/
theorem fireTokenStep_cases (ev : Event) (t : DeonticTokenInstance) :
    (fireTokenStep ev t).1 = t ∨
    (t.state = DeonticTokenState.INACTIVE ∧
      (fireTokenStep ev t).1 = { t with state := DeonticTokenState.ACTIVE }) ∨
    (t.state = DeonticTokenState.ACTIVE ∧
      (fireTokenStep ev t).1 =
        { t with state := DeonticTokenState.DISCHARGED }) := by
  unfold fireTokenStep
  by_cases h1 : (t.state == DeonticTokenState.INACTIVE &&
      optEventEq t.template.activation_trigger ev) = true
  · rw [if_pos h1]
    exact Or.inr (Or.inl ⟨eq_of_beq ((Bool.and_eq_true _ _).mp h1).1, rfl⟩)
  · rw [if_neg h1]
    by_cases h2 : (t.state == DeonticTokenState.ACTIVE) = true
    · rw [if_pos h2]
      cases hfe : t.template.finish_expression with
      | none => exact Or.inl rfl
      | some fe =>
        dsimp only
        by_cases h3 : fe.evaluate [ev] = true
        · rw [if_pos h3]
          exact Or.inr (Or.inr ⟨eq_of_beq h2, rfl⟩)
        · rw [if_neg h3]
          exact Or.inl rfl
    · rw [if_neg h2]
      exact Or.inl rfl

/-- _fire_event rewrites the token list pointwise and touches no other
container except the trace. -/
theorem fire_event_shape (e : Engine) (ev : Event) :
    (e.fire_event ev).tokens = e.tokens.map (fun t => (fireTokenStep ev t).1) ∧
    (e.fire_event ev).parties = e.parties ∧
    (e.fire_event ev).artifacts = e.artifacts ∧
    (e.fire_event ev).model = e.model ∧
    (e.fire_event ev).policy_values = e.policy_values := by
  refine ⟨?_, rfl, rfl, rfl, rfl⟩
  have h : (e.fire_event ev).tokens
      = (e.tokens.map (fireTokenStep ev)).map Prod.fst := rfl
  rw [h, List.map_map]
  rfl

/-- TokMono is reflexive. -/
theorem tokMono_refl (l : List DeonticTokenInstance) : TokMono l l := by
  refine ⟨Nat.le_refl _, ?_⟩
  intro i t t2 h1 h2
  rw [h1] at h2
  cases h2
  exact ⟨rfl, Nat.le_refl _, fun h => h⟩

/-- TokMono is transitive. -/
theorem tokMono_trans (a b c : List DeonticTokenInstance)
    (h1 : TokMono a b) (h2 : TokMono b c) : TokMono a c := by
  obtain ⟨hl1, hp1⟩ := h1
  obtain ⟨hl2, hp2⟩ := h2
  refine ⟨Nat.le_trans hl1 hl2, ?_⟩
  intro i t t2 ht ht2
  have hib : i < b.length := Nat.lt_of_lt_of_le (getElem?_lt a i t ht) hl1
  have hb : b[i]? = some (b[i]) := List.getElem?_eq_getElem hib
  obtain ⟨hA, hB, hC⟩ := hp1 i t _ ht hb
  obtain ⟨hA2, hB2, hC2⟩ := hp2 i _ t2 hb ht2
  exact ⟨hA2.trans hA, Nat.le_trans hB hB2, fun h => hC2 (hC h)⟩

/-- Appending new tokens is TokMono. -/
theorem tokMono_append (l news : List DeonticTokenInstance) :
    TokMono l (l ++ news) := by
  refine ⟨by simp, ?_⟩
  intro i t t2 ht ht2
  rw [List.getElem?_append_left (getElem?_lt l i t ht)] at ht2
  rw [ht] at ht2
  cases ht2
  exact ⟨rfl, Nat.le_refl _, fun h => h⟩

/-- A pointwise template-and-state-preserving rewrite is TokMono. -/
theorem tokMono_of_states_eq (l l2 : List DeonticTokenInstance)
    (hlen : l2.length = l.length)
    (h : ∀ (j : Nat) (t t2 : DeonticTokenInstance),
      l[j]? = some t → l2[j]? = some t2 →
      t2.template = t.template ∧ t2.state = t.state ∧ t2.context = t.context) :
    TokMono l l2 := by
  refine ⟨Nat.le_of_eq hlen.symm, ?_⟩
  intro i t t2 ht ht2
  obtain ⟨hA, hB, -⟩ := h i t t2 ht ht2
  exact ⟨hA, Nat.le_of_eq (by rw [hB]), fun hd => by rw [hB, hd]⟩

/-- Firing an event is TokMono: states only move forward, DISCHARGED is
terminal, templates survive. -/
theorem tokMono_fire (e : Engine) (ev : Event) :
    TokMono e.tokens (e.fire_event ev).tokens := by
  obtain ⟨htok, -, -, -, -⟩ := fire_event_shape e ev
  rw [htok]
  refine ⟨by rw [List.length_map], ?_⟩
  intro i t t2 ht ht2
  rw [List.getElem?_map, ht] at ht2
  simp only [Option.map_some'] at ht2
  cases ht2
  rcases fireTokenStep_cases ev t with h | ⟨hs, h⟩ | ⟨hs, h⟩
  · rw [h]
    exact ⟨rfl, Nat.le_refl _, fun hd => hd⟩
  · rw [h]
    refine ⟨rfl, by rw [hs]; simp [stateRank], fun hd => ?_⟩
    rw [hs] at hd
    cases hd
  · rw [h]
    exact ⟨rfl, by rw [hs]; simp [stateRank], fun hd => rfl⟩

/-- The permitted tail of perform_action is TokMono on the token population:
the built-ins do not touch tokens, delegation only rewrites an owner,
minting appends, and event firing moves states forward. -/
theorem perform_action_permitted_tokMono (o : Oracle) (e : Engine)
    (party : Party) (action : Action) (kwargs : List (String × Value))
    (e2 : Engine)
    (h : Engine.perform_action_permitted o e party action kwargs = .ok e2) :
    TokMono e.tokens e2.tokens := by
  unfold Engine.perform_action_permitted at h
  dsimp only at h
  split at h
  · cases h
  · rename_i e1 kwargs1 hb
    have he1 : e1.tokens = e.tokens :=
      (apply_builtin_preserves _ _ _ _ _ _ _ hb).1
    split at h
    · cases h
    · -- delegation branch aborted the call: engine is e1
      cases h
      rw [← he1]
      exact tokMono_refl _
    · rename_i e3 hdel
      have h13 : TokMono e1.tokens e3.tokens := by
        cases hk : action.kind with
        | delegation dtoks dtt tn ag =>
          rw [hk] at hdel
          obtain ⟨hlen, hpt, -, -, -, -⟩ :=
            perform_delegation_tokens e1 party action tn ag kwargs1 e3 hdel
          exact tokMono_of_states_eq _ _ hlen
            (fun j t t2 ht ht2 => hpt j t t2 ht ht2)
        | basic rt => rw [hk] at hdel; cases hdel; exact tokMono_refl _
        | speechAct ts => rw [hk] at hdel; cases hdel; exact tokMono_refl _
        | authorization ts => rw [hk] at hdel; cases hdel; exact tokMono_refl _
        | declaration ts => rw [hk] at hdel; cases hdel; exact tokMono_refl _
      have h34 : TokMono e3.tokens
          (match action.speechActTokens with
            | some ts => Engine.mint_tokens o party kwargs1 e3 ts
            | Option.none => e3).tokens := by
        cases hst : action.speechActTokens with
        | none => exact tokMono_refl _
        | some ts =>
          obtain ⟨⟨news, hn, -⟩, -, -, -, -⟩ :=
            mint_tokens_shape o party kwargs1 ts e3
          dsimp only
          rw [hn]
          exact tokMono_append _ _
      have h42 : TokMono
          (match action.speechActTokens with
            | some ts => Engine.mint_tokens o party kwargs1 e3 ts
            | Option.none => e3).tokens e2.tokens := by
        cases h
        cases htr : action.trigger_event with
        | none => exact tokMono_refl _
        | some ev => exact tokMono_fire _ _
      rw [← he1]
      exact tokMono_trans _ _ _ h13 (tokMono_trans _ _ _ h34 h42)

/-- One driver call is TokMono on the token population. -/
theorem step_tokMono (o : Oracle) (e : Engine) (c : DriverCall) (e2 : Engine)
    (h : e.step o c = .ok e2) : TokMono e.tokens e2.tokens := by
  cases c with
  | createParty n rs =>
    have h2 : e.create_party n rs = .ok e2 := h
    obtain ⟨ht, -, -, -, -⟩ := create_party_preserves e n rs e2 h2
    rw [← ht]
    exact tokMono_refl _
  | createArtifact ty iid props =>
    have h2 : e.create_artifact_instance ty iid props = .ok e2 := h
    obtain ⟨ht, -, -, -, -, -⟩ := create_artifact_preserves e ty iid props e2 h2
    rw [← ht]
    exact tokMono_refl _
  | performAction pn an kwargs =>
    have h2 : e.perform_action o pn an kwargs = .ok e2 := h
    unfold Engine.perform_action at h2
    split at h2
    · cases h2
      exact tokMono_refl _
    · rename_i party hp
      split at h2
      · cases h2
        exact tokMono_refl _
      · rename_i action ha
        split at h2
        · cases h2
          exact tokMono_refl _
        · split at h2
          · rename_i g hg
            split at h2
            · exact perform_action_permitted_tokMono _ _ _ _ _ _ h2
            · cases h2
              exact tokMono_refl _
          · exact perform_action_permitted_tokMono _ _ _ _ _ _ h2

/-! Claim C1. -/

/-- Claim C1 states that a token minted from a template without an
activation_trigger is created ACTIVE. Counterexample: the successful speech
act grant mints one instance of the trigger-less template ttNoTrig and that
instance is created INACTIVE, not ACTIVE (DeonticTokenInstance's dataclass
default state, which Engine.perform_action never overrides). -/
theorem C1_counterexample :
    (tokensOf c1Run).map DeonticTokenInstance.template = [ttNoTrig] ∧
    ttNoTrig.activation_trigger = Option.none ∧
    (tokensOf c1Run).map DeonticTokenInstance.state =
      [DeonticTokenState.INACTIVE] ∧
    DeonticTokenState.INACTIVE ≠ DeonticTokenState.ACTIVE :=
  ⟨rfl, rfl, rfl, by decide⟩

/-- Claim C1 as amended: every DeonticTokenInstance minted by the speech-act
branch of Engine.perform_action (the Engine.mint_tokens loop) is created in
state INACTIVE, whether or not its template has an activation_trigger; the
pre-existing tokens are untouched by the minting. -/
theorem C1_amended (o : Oracle) (party : Party) (kwargs : List (String × Value))
    (e : Engine) (ts : List DeonticToken) :
    (Engine.mint_tokens o party kwargs e ts).tokens.take e.tokens.length
      = e.tokens ∧
    (((Engine.mint_tokens o party kwargs e ts).tokens.drop
      e.tokens.length).all
      (fun t => t.state == DeonticTokenState.INACTIVE)) = true := by
  obtain ⟨⟨news, hn, hs⟩, -, -, -, -⟩ := mint_tokens_shape o party kwargs ts e
  rw [hn]
  refine ⟨List.take_left .., ?_⟩
  rw [List.drop_left, List.all_eq_true]
  intro t ht
  simp [hs t ht]

/-! Claim C10. -/

/-- Claim C10: within a single Engine.fire_event firing, a token that is
INACTIVE with a matching activation_trigger is only activated, not also
discharged, even when its finish_expression is already satisfied by the
one-event occurrence set; and no INACTIVE token ever reaches DISCHARGED in
one firing. -/
theorem C10_single_transition (e : Engine) (ev : Event) (i : Nat)
    (t : DeonticTokenInstance) (fe : EventExpression)
    (hti : e.tokens[i]? = some t)
    (hstate : t.state = DeonticTokenState.INACTIVE)
    (htrig : optEventEq t.template.activation_trigger ev = true)
    (hfin : t.template.finish_expression = some fe)
    (hsat : fe.evaluate [ev] = true) :
    (e.fire_event ev).tokens[i]? =
      some { t with state := DeonticTokenState.ACTIVE } ∧
    ∀ (j : Nat) (t2 : DeonticTokenInstance), e.tokens[j]? = some t2 →
      t2.state = DeonticTokenState.INACTIVE →
      ((e.fire_event ev).tokens[j]?).map DeonticTokenInstance.state ≠
        some DeonticTokenState.DISCHARGED := by
  have hmap : (e.fire_event ev).tokens
      = e.tokens.map (fun u => (fireTokenStep ev u).1) := by
    simp [Engine.fire_event]
  constructor
  · rw [hmap, List.getElem?_map, hti]
    simp [fireTokenStep, hstate, htrig]
  · intro j t2 ht2 hINACT
    rw [hmap, List.getElem?_map, ht2]
    by_cases htr : optEventEq t2.template.activation_trigger ev = true
    · simp [fireTokenStep, hINACT, htr]
    · simp [fireTokenStep, hINACT, htr]

/-- Witness for C10: the inactive escrow token with trigger evA and an
already-satisfied finish expression is activated, not discharged, by firing
evA. -/
theorem C10_witness :
    (eC10.fire_event evA).tokens[0]? =
      some { tokTrigFin with state := DeonticTokenState.ACTIVE } :=
  (C10_single_transition eC10 evA 0 tokTrigFin
    (.node Option.none [Sum.inr evA]) rfl rfl rfl rfl rfl).1

/-! Claim C4. -/

/-- Claim C4: whenever the acting party holds an ACTIVE embargo token, an
attempt to perform any action is answered by exactly one ACTION_PROHIBITED
trace entry naming that party, and the engine state is otherwise unchanged;
in particular no ACTION entry for that party is produced while the embargo
is held. -/
theorem C4_embargo_blocks (o : Oracle) (e : Engine) (pn an : String)
    (kwargs : List (String × Value)) (party : Party) (action : Action)
    (t : DeonticTokenInstance)
    (hp : e.parties.lookup pn = some party)
    (ha : party.get_action an = some action)
    (hemb : findActiveEmbargo e.tokens party = some t) :
    e.perform_action o pn an kwargs = .ok { e with trace := e.trace ++
      [LogEntry.actionProhibited party an
        ("Active embargo '" ++ t.template.name ++ "'")] } := by
  simp [Engine.perform_action, hp, ha, hemb]

/-- Witness for C4: Alice, holding the active suspended embargo, attempts
grant and is only prohibited. -/
theorem C4_embargo_blocks_witness :
    eEmb.perform_action oracleA "Alice" "grant" [] = .ok { eEmb with trace :=
      [LogEntry.actionProhibited alice "grant" "Active embargo 'suspended'"] } :=
  C4_embargo_blocks oracleA eEmb "Alice" "grant" [] alice actGrant tokEmb
    rfl rfl rfl

/-! Claim C6. -/

/-- Claim C6: when an action's guard evaluates to false, or raises so that
evaluation yields false (Guard.evaluate turns an eval exception into false),
the call only appends one ACTION_PROHIBITED entry: no TOKEN_CREATE entry is
produced, the artifact store is untouched (no built-in side effect) and the
token population is untouched (no event fired). -/
theorem C6_guard_closure (o : Oracle) (e : Engine) (pn an : String)
    (kwargs : List (String × Value)) (party : Party) (action : Action)
    (g : Guard)
    (hp : e.parties.lookup pn = some party)
    (ha : party.get_action an = some action)
    (hemb : findActiveEmbargo e.tokens party = Option.none)
    (hg : action.guard = some g)
    (heval : g.evaluate o ⟨e.policy_values, e.artifacts, party, kwargs⟩ = false) :
    e.perform_action o pn an kwargs = .ok { e with trace := e.trace ++
      [LogEntry.actionProhibited party action.name
        ("Guard failed: " ++ g.raw)] } ∧
    tokensOf (e.perform_action o pn an kwargs) = e.tokens ∧
    artifactsOf (e.perform_action o pn an kwargs) = e.artifacts ∧
    ((traceOf (e.perform_action o pn an kwargs)).drop e.trace.length).all
      (fun le => !le.isTokenCreate) = true := by
  have hmain : e.perform_action o pn an kwargs = .ok { e with trace :=
      e.trace ++ [LogEntry.actionProhibited party action.name
        ("Guard failed: " ++ g.raw)] } := by
    simp [Engine.perform_action, hp, ha, hemb, hg, heval]
  refine ⟨hmain, ?_, ?_, ?_⟩
  · rw [hmain]; rfl
  · rw [hmain]; rfl
  · rw [hmain]
    show ((e.trace ++ [LogEntry.actionProhibited party action.name
      ("Guard failed: " ++ g.raw)]).drop e.trace.length).all
      (fun le => !le.isTokenCreate) = true
    rw [List.drop_left]
    rfl

/-- Witness for C6: with an oracle whose eval raises on every guard, the
guarded audit action is denied and leaves everything but the trace alone. -/
theorem C6_guard_closure_witness :
    ePlain.perform_action oracleA "Alice" "audit" [] = .ok { ePlain with
      trace := [LogEntry.actionProhibited alice "audit"
        "Guard failed: False"] } ∧
    tokensOf (ePlain.perform_action oracleA "Alice" "audit" []) = [] ∧
    artifactsOf (ePlain.perform_action oracleA "Alice" "audit" []) = [] ∧
    ((traceOf (ePlain.perform_action oracleA "Alice" "audit" [])).drop 0).all
      (fun le => !le.isTokenCreate) = true :=
  C6_guard_closure oracleA ePlain "Alice" "audit" [] alice actGuarded
    ⟨"False"⟩ rfl rfl rfl rfl rfl

/-! Claim C3. -/

/-- Claim C3 states that every normative denial, including unmet delegation
preconditions, is recorded via log_action_prohibited. Counterexample: a
delegation whose recipient lacks the required role is denied but produces no
ACTION_PROHIBITED entry at all; the trace instead holds the ACTION entry
that was already logged before the delegation checks ran. -/
theorem C3_counterexample :
    (traceOf c3Run).filter LogEntry.isActionProhibited = [] ∧
    traceOf c3Run = [LogEntry.action alice "return_item_delegation"
      [("agent", (Value.party alice).pyRepr)]] ∧
    tokensOf c3Run = [] :=
  ⟨rfl, rfl, rfl⟩

/-- Claim C3 as amended: the embargo-block and guard-failure denials are
recorded via log_action_prohibited as the sole new trace entry, and the
engine state is otherwise unchanged; unmet delegation preconditions are only
reported on the console, after an ACTION entry has already been traced. -/
theorem C3_amended (o : Oracle) (e : Engine) (pn an : String)
    (kwargs : List (String × Value)) (party : Party) (action : Action)
    (hp : e.parties.lookup pn = some party)
    (ha : party.get_action an = some action)
    (hden : (∃ t, findActiveEmbargo e.tokens party = some t) ∨
      (findActiveEmbargo e.tokens party = Option.none ∧
       ∃ g, action.guard = some g ∧
         g.evaluate o ⟨e.policy_values, e.artifacts, party, kwargs⟩ = false)) :
    ∃ reason, e.perform_action o pn an kwargs =
      .ok { e with trace := e.trace ++
        [LogEntry.actionProhibited party an reason] } := by
  rcases hden with ⟨t, hemb⟩ | ⟨hemb, g, hg, heval⟩
  · refine ⟨"Active embargo '" ++ t.template.name ++ "'", ?_⟩
    simp [Engine.perform_action, hp, ha, hemb]
  · refine ⟨"Guard failed: " ++ g.raw, ?_⟩
    have hname := get_action_name party an action ha
    subst hname
    simp [Engine.perform_action, hp, ha, hemb, hg, heval]

/-- Witness for C3 as amended: the guard-failure denial of audit appends
exactly one ACTION_PROHIBITED entry. -/
theorem C3_amended_witness :
    ∃ reason, ePlain.perform_action oracleA "Alice" "audit" [] =
      .ok { ePlain with trace :=
        [LogEntry.actionProhibited alice "audit" reason] } :=
  C3_amended oracleA ePlain "Alice" "audit" [] alice actGuarded rfl rfl
    (Or.inr ⟨rfl, ⟨"False"⟩, rfl, rfl⟩)

/-! Claim C7. -/

/-- Claim C7 states that two runs over the same model, same initial state and
same driver calls produce traces equal up to timestamps. Counterexample: the
same two calls under oracles that differ only in their uuid draws (the
default_factory of DeonticTokenInstance.instance_id) produce TOKEN_CREATE
entries with different token_id fields, a non-timestamp difference. -/
theorem C7_counterexample :
    traceOf c1Run = [LogEntry.action alice "grant" [],
      LogEntry.tokenCreate "token-aaaaaa" "return_item" alice] ∧
    traceOf c7RunB = [LogEntry.action alice "grant" [],
      LogEntry.tokenCreate "token-bbbbbb" "return_item" alice] ∧
    traceOf c1Run ≠ traceOf c7RunB ∧
    oracleA.evalGuard = oracleB.evalGuard :=
  ⟨rfl, rfl, by decide, rfl⟩

/-- Claim C7 as amended: with the uuid draws and the guard-eval semantics
also fixed, a run is fully determined by the model, the initial engine state
and the driver calls; the engine has no other source of nondeterminism
besides the unmodelled timestamps. -/
theorem C7_amended (o1 o2 : Oracle) (e : Engine) (calls : List DriverCall)
    (hg : o1.genId = o2.genId) (hev : o1.evalGuard = o2.evalGuard) :
    e.run o1 calls = e.run o2 calls := by
  have h : o1 = o2 := by cases o1; cases o2; cases hg; cases hev; rfl
  rw [h]

/-- Witness for C7 as amended, at the fixture model and calls. -/
theorem C7_amended_witness :
    (Engine.init libModel).run oracleA
      [.createParty "Alice" ["Borrower"], .performAction "Alice" "grant" []]
    = (Engine.init libModel).run oracleA
      [.createParty "Alice" ["Borrower"], .performAction "Alice" "grant" []] :=
  C7_amended oracleA oracleA (Engine.init libModel)
    [.createParty "Alice" ["Borrower"], .performAction "Alice" "grant" []]
    rfl rfl

/-! Claim C8. -/

/-- Claim C8 states that no driver call lets an exception escape.
Counterexample: a Delegation performed without an agent keyword argument
raises AttributeError (the error message f-string reads .name off None) and
the exception propagates out of perform_action. -/
theorem C8_counterexample :
    c8Run = .error (.attributeError "name") := rfl

/-- Claim C8 as amended: the driver-misuse kinds the source handles (unknown
party, unknown action, duplicate party name, unknown role, duplicate
artifact id, unknown artifact template) all return normally with the engine
unchanged; but missing or null keyword arguments on a Delegation or a
built-in action can raise. -/
theorem C8_amended :
    (∀ (o : Oracle) (e : Engine) (pn an : String)
      (kwargs : List (String × Value)),
      e.parties.lookup pn = Option.none →
      e.perform_action o pn an kwargs = .ok e) ∧
    (∀ (o : Oracle) (e : Engine) (pn an : String)
      (kwargs : List (String × Value)) (party : Party),
      e.parties.lookup pn = some party → party.get_action an = Option.none →
      e.perform_action o pn an kwargs = .ok e) ∧
    (∀ (e : Engine) (n : String) (rs : List String),
      (e.parties.lookup n).isSome = true → e.create_party n rs = .ok e) ∧
    (∀ (e : Engine) (n : String) (rs : List String) (c : Community)
      (cs : List Community),
      e.parties.lookup n = Option.none → e.model.communities = c :: cs →
      (rs.map (fun r => c.get_role r)).all Option.isSome = false →
      e.create_party n rs = .ok e) ∧
    (∀ (e : Engine) (ty iid : String) (props : List (String × Value)),
      (e.artifacts.lookup iid).isSome = true →
      e.create_artifact_instance ty iid props = .ok e) ∧
    (∀ (e : Engine) (ty iid : String) (props : List (String × Value))
      (c : Community) (cs : List Community),
      e.artifacts.lookup iid = Option.none → e.model.communities = c :: cs →
      c.get_artifact ty = Option.none →
      e.create_artifact_instance ty iid props = .ok e) := by
  refine ⟨?_, ?_, ?_, ?_, ?_, ?_⟩
  · intro o e pn an kwargs h
    simp [Engine.perform_action, h]
  · intro o e pn an kwargs party h1 h2
    simp [Engine.perform_action, h1, h2]
  · intro e n rs h
    simp [Engine.create_party, h]
  · intro e n rs c cs h1 h2 h3
    simp [Engine.create_party, h1, h2, h3]
  · intro e ty iid props h
    simp [Engine.create_artifact_instance, h]
  · intro e ty iid props c cs h1 h2 h3
    simp [Engine.create_artifact_instance, h1, h2, h3]

/-- Witness for C8 as amended: each handled misuse kind at a concrete input.
Unknown party Zoe, unknown action fly, duplicate party Alice, unknown role
Wizard, duplicate artifact book-001, unknown template Spaceship. -/
theorem C8_amended_witness :
    ePlain.perform_action oracleA "Zoe" "grant" [] = .ok ePlain ∧
    ePlain.perform_action oracleA "Alice" "fly" [] = .ok ePlain ∧
    ePlain.create_party "Alice" [] = .ok ePlain ∧
    ePlain.create_party "Zoe" ["Wizard"] = .ok ePlain ∧
    eArt.create_artifact_instance "LibraryItem" "book-001" [] = .ok eArt ∧
    ePlain.create_artifact_instance "Spaceship" "ship-1" [] = .ok ePlain :=
  ⟨C8_amended.1 oracleA ePlain "Zoe" "grant" [] rfl,
   C8_amended.2.1 oracleA ePlain "Alice" "fly" [] alice rfl rfl,
   C8_amended.2.2.1 ePlain "Alice" [] rfl,
   C8_amended.2.2.2.1 ePlain "Zoe" ["Wizard"] libCommunity [] rfl rfl rfl,
   C8_amended.2.2.2.2.1 eArt "LibraryItem" "book-001" [] rfl,
   C8_amended.2.2.2.2.2 ePlain "Spaceship" "ship-1" [] libCommunity []
     rfl rfl rfl⟩

/-! Claim C9. -/

/-- Claim C9 states that duplicate role, artifact, event or policy names are
refused during index construction. Counterexample for the policy part: a
community with two policies named maxLoans passes build_indexes and engine
construction silently keeps only the later initial value in policy_values. -/
theorem C9_counterexample :
    (Engine.init dupPolModel).policy_values =
      [("maxLoans", PolicyValue.num 5)] ∧
    polA.name = polB.name ∧
    polA.initial_value ≠ polB.initial_value ∧
    dupPolCommunity.build_indexes = .ok ⟨[], [], []⟩ :=
  ⟨rfl, rfl, by decide, rfl⟩

/-- Keys of an association list built so far. -/
theorem lookup_isSome_iff_mem {α : Type} (idx : List (String × α)) (k : String) :
    (idx.lookup k).isSome = true ↔ k ∈ idx.map Prod.fst := by
  induction idx with
  | nil => simp [List.lookup]
  | cons kv rest ih =>
    cases kv with
    | mk a b =>
      by_cases h : k = a
      · simp [List.lookup, h]
      · have hb : (k == a) = false := by simp [h]
        simp [List.lookup, hb, h, ih]

/-- A duplicate among the new names (or a clash with the keys already
indexed) makes the indexing loop raise. -/
theorem buildIndex_dup_error {α : Type} (getName : α → String)
    (mkErr : String → String) :
    ∀ (xs : List α) (idx : List (String × α)),
      (idx.map Prod.fst).Nodup →
      ¬ (idx.map Prod.fst ++ xs.map getName).Nodup →
      ∃ m, buildIndex getName mkErr xs idx = .error m := by
  intro xs
  induction xs with
  | nil =>
    intro idx hnd hdup
    exact absurd (by simpa using hnd) (by simpa using hdup)
  | cons x rest ih =>
    intro idx hnd hdup
    by_cases hmem : ((idx.lookup (getName x)).isSome = true)
    · refine ⟨mkErr (getName x), ?_⟩
      have h1 : indexInsert idx (getName x) x (mkErr (getName x)) =
          .error (mkErr (getName x)) := by
        simp [indexInsert, hmem]
      simp only [buildIndex]
      rw [h1]
      rfl
    · have hnotmem : getName x ∉ idx.map Prod.fst := by
        rw [← lookup_isSome_iff_mem]
        simpa using hmem
      have h1 : indexInsert idx (getName x) x (mkErr (getName x)) =
          .ok (idx ++ [(getName x, x)]) := by
        simp [indexInsert, hmem]
      have hstep : buildIndex getName mkErr (x :: rest) idx =
          buildIndex getName mkErr rest (idx ++ [(getName x, x)]) := by
        simp only [buildIndex]
        rw [h1]
        rfl
      rw [hstep]
      apply ih
      · rw [List.map_append]
        simp [List.nodup_append, hnd, hnotmem]
      · intro hcon
        apply hdup
        rw [List.map_append, List.append_assoc] at hcon
        simpa using hcon

/-- Claim C9 as amended: Community.build_indexes refuses duplicate role,
artifact and event names with a construction error; duplicate policy names
are not refused anywhere (the engine silently keeps the last value). -/
theorem C9_amended (c : Community)
    (hdup : ¬ (c.roles.map CommunityRole.name).Nodup ∨
            ¬ (c.artifacts.map Artifact.name).Nodup ∨
            ¬ (c.events.map Event.name).Nodup) :
    ∃ m, c.build_indexes = .error m := by
  rcases hdup with h | h | h
  · obtain ⟨m, hm⟩ := buildIndex_dup_error CommunityRole.name
      (fun n => s!"Duplicate role name {n} in community {c.name}") c.roles []
      (by simp) (by simpa using h)
    refine ⟨m, ?_⟩
    simp only [Community.build_indexes]
    rw [hm]
    rfl
  · cases hr : buildIndex CommunityRole.name
      (fun n => s!"Duplicate role name {n} in community {c.name}") c.roles []
      with
    | error m =>
      refine ⟨m, ?_⟩
      simp only [Community.build_indexes]
      rw [hr]
      rfl
    | ok ri =>
      obtain ⟨m, hm⟩ := buildIndex_dup_error Artifact.name
        (fun n => s!"Duplicate artifact name {n} in community {c.name}")
        c.artifacts [] (by simp) (by simpa using h)
      refine ⟨m, ?_⟩
      simp only [Community.build_indexes]
      rw [hr]
      show (do
        let ai ← buildIndex Artifact.name
          (fun n => s!"Duplicate artifact name {n} in community {c.name}")
          c.artifacts []
        let ei ← buildIndex Event.name
          (fun n => s!"Duplicate event name {n} in community {c.name}")
          c.events []
        Except.ok (⟨ri, ai, ei⟩ : CommunityIndexes)) = Except.error m
      rw [hm]
      rfl
  · cases hr : buildIndex CommunityRole.name
      (fun n => s!"Duplicate role name {n} in community {c.name}") c.roles []
      with
    | error m =>
      refine ⟨m, ?_⟩
      simp only [Community.build_indexes]
      rw [hr]
      rfl
    | ok ri =>
      cases ha : buildIndex Artifact.name
        (fun n => s!"Duplicate artifact name {n} in community {c.name}")
        c.artifacts [] with
      | error m =>
        refine ⟨m, ?_⟩
        simp only [Community.build_indexes]
        rw [hr]
        show (do
          let ai ← buildIndex Artifact.name
            (fun n => s!"Duplicate artifact name {n} in community {c.name}")
            c.artifacts []
          let ei ← buildIndex Event.name
            (fun n => s!"Duplicate event name {n} in community {c.name}")
            c.events []
          Except.ok (⟨ri, ai, ei⟩ : CommunityIndexes)) = Except.error m
        rw [ha]
        rfl
      | ok ai =>
        obtain ⟨m, hm⟩ := buildIndex_dup_error Event.name
          (fun n => s!"Duplicate event name {n} in community {c.name}")
          c.events [] (by simp) (by simpa using h)
        refine ⟨m, ?_⟩
        simp only [Community.build_indexes]
        rw [hr]
        show (do
          let ai ← buildIndex Artifact.name
            (fun n => s!"Duplicate artifact name {n} in community {c.name}")
            c.artifacts []
          let ei ← buildIndex Event.name
            (fun n => s!"Duplicate event name {n} in community {c.name}")
            c.events []
          Except.ok (⟨ri, ai, ei⟩ : CommunityIndexes)) = Except.error m
        rw [ha]
        show (do
          let ei ← buildIndex Event.name
            (fun n => s!"Duplicate event name {n} in community {c.name}")
            c.events []
          Except.ok (⟨ri, ai, ei⟩ : CommunityIndexes)) = Except.error m
        rw [hm]
        rfl

/-- Witness for C9 as amended: the community with two roles named R is
refused. -/
theorem C9_amended_witness : ∃ m, dupRoleCommunity.build_indexes = .error m :=
  C9_amended dupRoleCommunity (Or.inl (by decide))

/-! Claim C5. -/

/-- Claim C5: under every driver call and every sequence of driver calls,
each token instance keeps its template, its lifecycle state never moves
backwards in the order INACTIVE, ACTIVE, DISCHARGED, and DISCHARGED is
terminal (which is exactly TokMono); since every single operation is
monotone, each state is entered at most once and in order, so the observed
state sequence of every token is a prefix of INACTIVE, ACTIVE, DISCHARGED. -/
theorem C5_token_monotonicity :
    (∀ (o : Oracle) (e : Engine) (c : DriverCall) (e2 : Engine),
      e.step o c = .ok e2 → TokMono e.tokens e2.tokens) ∧
    (∀ (o : Oracle) (e : Engine) (calls : List DriverCall) (e2 : Engine),
      e.run o calls = .ok e2 → TokMono e.tokens e2.tokens) := by
  refine ⟨step_tokMono, ?_⟩
  intro o e calls
  induction calls generalizing e with
  | nil =>
    intro e2 h
    have h2 : Except.ok e = Except.ok e2 := h
    cases h2
    exact tokMono_refl _
  | cons c rest ih =>
    intro e2 h
    have h2 : (match e.step o c with
      | .error er => Except.error er
      | .ok eM => eM.run o rest) = .ok e2 := h
    cases hs : e.step o c with
    | error er =>
      rw [hs] at h2
      cases h2
    | ok eM =>
      rw [hs] at h2
      dsimp only at h2
      exact tokMono_trans _ _ _ (step_tokMono o e c eM hs) (ih eM e2 h2)

/-- Witness for C5: one concrete perform_action step. -/
theorem C5_witness :
    TokMono eC10.tokens
      (okOr (eC10.step oracleA
        (DriverCall.performAction "Alice" "grant" [])) eC10).tokens :=
  C5_token_monotonicity.1 oracleA eC10
    (DriverCall.performAction "Alice" "grant" [])
    (okOr (eC10.step oracleA
      (DriverCall.performAction "Alice" "grant" [])) eC10) rfl

/-! Claim C2. -/

/-- Claim C2 states that a successful Delegation leaves the state of every
token unchanged. Counterexample: a delegation action carrying a trigger
event (Delegation inherits trigger_event from Action and perform_action
fires it after the transfer) both transfers the return_item token to Bob and
discharges the bystander other_burden token, so a state changed. -/
theorem C2_counterexample :
    eC2.tokens.map DeonticTokenInstance.state =
      [DeonticTokenState.ACTIVE, DeonticTokenState.ACTIVE] ∧
    eC2.tokens.map DeonticTokenInstance.owner = [alice, alice] ∧
    (tokensOf c2Run).map DeonticTokenInstance.state =
      [DeonticTokenState.ACTIVE, DeonticTokenState.DISCHARGED] ∧
    (tokensOf c2Run).map DeonticTokenInstance.owner = [bob, alice] ∧
    traceOf c2Run = [
      LogEntry.action alice "delegation_with_event"
        [("agent", (Value.party bob).pyRepr)],
      LogEntry.tokenStateChange "token-d" "return_item" bob "ACTIVE"
        "delegated via delegation_with_event",
      LogEntry.tokenStateChange "token-o" "other_burden" alice "DISCHARGED"
        "itemBorrowed"] :=
  ⟨rfl, rfl, rfl, rfl, rfl⟩

/-- Claim C2 as amended: a successful Delegation whose action defines no
trigger_event (and whose inherited tokens list is empty, as the hydrator
guarantees) sets the owner of exactly the one matching token and preserves
the token count and every token's template, state and context; no new token
is minted. -/
theorem C2_amended
    (o : Oracle) (e : Engine) (pn an : String) (kwargs : List (String × Value))
    (party : Party) (action : Action) (dtoks : List DeonticToken)
    (dtt : DelegatedToken) (tn : String) (ar : String) (p : Party)
    (e1 : Engine) (kwargs1 : List (String × Value)) (i : Nat)
    (t : DeonticTokenInstance)
    (hp : e.parties.lookup pn = some party)
    (ha : party.get_action an = some action)
    (hkind : action.kind = .delegation dtoks dtt tn (some ar))
    (hdtoks : dtoks = [])
    (hemb : findActiveEmbargo e.tokens party = Option.none)
    (hguard : ∀ g, action.guard = some g →
      g.evaluate o ⟨e.policy_values, e.artifacts, party, kwargs⟩ = true)
    (hb : Engine.apply_builtin o
        { e with trace := e.trace ++ [LogEntry.action party action.name
          (kwargs.map (fun kv : String × Value => (kv.1, kv.2.pyRepr)))] }
        party action kwargs = .ok (e1, kwargs1))
    (hagent : kwget kwargs1 "agent" = Value.party p)
    (hrole : p.has_role ar = true)
    (hfound : findDelegationToken party tn (kwget kwargs1 "loan")
      e1.tokens 0 = some (i, t))
    (htrig : action.trigger_event = Option.none) :
    e.perform_action o pn an kwargs = .ok { e1 with
      tokens := e1.tokens.set i { t with owner := p },
      trace := e1.trace ++ [LogEntry.tokenStateChange t.instance_id
        t.template.name p t.state.pyName
        ("delegated via " ++ action.name)] } ∧
    e1.tokens = e.tokens ∧
    (e1.tokens.set i { t with owner := p }).length = e.tokens.length ∧
    e1.tokens[i]? = some t ∧
    (∀ (j : Nat) (u u2 : DeonticTokenInstance),
      e.tokens[j]? = some u →
      (e1.tokens.set i { t with owner := p })[j]? = some u2 →
      u2.template = u.template ∧ u2.state = u.state ∧
      (j ≠ i → u2.owner = u.owner)) ∧
    ((e1.tokens.set i { t with owner := p })[i]?).map
      DeonticTokenInstance.owner = some p := by
  have he1 : e1.tokens = e.tokens := (apply_builtin_preserves _ _ _ _ _ _ _ hb).1
  obtain ⟨-, hget, -⟩ := findDelegationToken_spec party tn _ e1.tokens 0 i t hfound
  simp only [Nat.sub_zero] at hget
  have hi : i < e1.tokens.length := getElem?_lt _ _ _ hget
  have hdel : e1.perform_delegation party action tn (some ar) kwargs1 =
      .ok (some { e1 with
        tokens := e1.tokens.set i { t with owner := p },
        trace := e1.trace ++ [LogEntry.tokenStateChange t.instance_id
          t.template.name p t.state.pyName
          ("delegated via " ++ action.name)] }) := by
    unfold Engine.perform_delegation
    dsimp only
    rw [hagent]
    rw [if_neg (by simp [Value.truthy])]
    dsimp only
    rw [if_neg (by simp [hrole])]
    rw [hfound]
  have hst : action.speechActTokens = some dtoks := by
    obtain ⟨nm, ps, gd, te, kd⟩ := action
    simp only at hkind
    subst hkind
    rfl
  have hperm : Engine.perform_action_permitted o e party action kwargs =
      .ok { e1 with
        tokens := e1.tokens.set i { t with owner := p },
        trace := e1.trace ++ [LogEntry.tokenStateChange t.instance_id
          t.template.name p t.state.pyName
          ("delegated via " ++ action.name)] } := by
    unfold Engine.perform_action_permitted
    dsimp only
    rw [hb]
    dsimp only
    rw [hkind]
    dsimp only
    rw [hdel]
    dsimp only
    rw [hst, hdtoks, htrig]
    rfl
  have hmain : e.perform_action o pn an kwargs = .ok { e1 with
      tokens := e1.tokens.set i { t with owner := p },
      trace := e1.trace ++ [LogEntry.tokenStateChange t.instance_id
        t.template.name p t.state.pyName
        ("delegated via " ++ action.name)] } := by
    unfold Engine.perform_action
    rw [hp]
    dsimp only
    rw [ha]
    dsimp only
    rw [hemb]
    dsimp only
    cases hg : action.guard with
    | none =>
      dsimp only
      exact hperm
    | some g =>
      dsimp only
      rw [hguard g hg]
      rw [if_pos rfl]
      exact hperm
  refine ⟨hmain, he1, by rw [List.length_set, he1], hget, ?_, ?_⟩
  · intro j u u2 hu hu2
    by_cases hij : j = i
    · subst hij
      rw [List.getElem?_set_self hi] at hu2
      rw [he1] at hget
      rw [hget] at hu
      cases hu
      cases hu2
      exact ⟨rfl, rfl, fun hne => absurd rfl hne⟩
    · rw [List.getElem?_set_ne (fun hh => hij hh.symm)] at hu2
      rw [he1] at hu2
      rw [hu] at hu2
      cases hu2
      exact ⟨rfl, rfl, fun _ => rfl⟩
  · rw [List.getElem?_set_self hi, Option.map_some']

/-- Witness for C2 as amended: Alice delegates the return_item burden to Bob
through the trigger-less delegation action; only tokDeleg's owner changes. -/
theorem C2_amended_witness :
    eC2.perform_action oracleA "Alice" "return_item_delegation"
      [("agent", Value.party bob)] = .ok { eC2b with
      tokens := eC2b.tokens.set 0 { tokDeleg with owner := bob },
      trace := eC2b.trace ++ [LogEntry.tokenStateChange tokDeleg.instance_id
        tokDeleg.template.name bob tokDeleg.state.pyName
        ("delegated via " ++ actDelegate.name)] } :=
  (C2_amended oracleA eC2 "Alice" "return_item_delegation"
    [("agent", Value.party bob)] alice actDelegate [] .BURDEN "return_item"
    "ProxyBorrower" bob eC2b [("agent", Value.party bob)] 0 tokDeleg
    rfl rfl rfl rfl rfl (fun g hg => by simp [actDelegate] at hg)
    rfl rfl rfl rfl rfl).1

end ODPEL


